import Mathlib

/-
Verification of the PromptFusion code-analysis core (src/analyzers.py).

The development shallowly embeds the Python module `analyzers.py`:
pure helper functions become Lean functions, the regular expressions of the
lexical extractors are transcribed into a small backtracking regex engine
that models the Python `re` semantics actually exercised by those patterns
(leftmost search, ordered alternation, greedy/lazy repetition with
backtracking, capturing groups, non-overlapping finditer), and the
`os.path` functions used by the project analyzer are transcribed from
CPython's posixpath.  External effects are parameters: `read` models
opening and reading a file (which can fail), `pyParse` models `ast.parse`
(which can raise SyntaxError), and `cwd` models the working directory that
`os.path.relpath`/`abspath` consult for relative inputs.

All inputs of interest are ASCII, so the ASCII approximations of the
character classes (Python \w, \s over ASCII) coincide with `re` behaviour
on every string this development evaluates.
-/

set_option maxRecDepth 20000

namespace PromptFusion

/-! ## Character helpers (ASCII) -/

def obrace : Char := Char.ofNat 123
def cbrace : Char := Char.ofNat 125
def squote : Char := Char.ofNat 39
def dquote : Char := Char.ofNat 34

/-! ## Regex engine

A character-class atom and regular expressions, mirroring the constructs
used by the patterns in `analyzers.py`. -/

inductive CAtom where
  | lit (c : Char)
  | rng (a b : Char)
  | word       -- \w  (ASCII: [A-Za-z0-9_])
  | space      -- \s  (ASCII whitespace)
  | digit      -- \d
deriving Repr, DecidableEq

def catomMatch : CAtom → Char → Bool
  | .lit c, x => x == c
  | .rng a b, x => a ≤ x && x ≤ b
  | .word, x => x.isAlphanum || x == '_'
  | .space, x => x == ' ' || x == '\t' || x == '\n' || x == '\r' || x == '\x0b' || x == '\x0c'
  | .digit, x => x.isDigit

inductive Re where
  | eps
  | bos                      -- ^ without MULTILINE: start of string
  | one (a : CAtom)
  | cset (l : List CAtom)    -- [...]
  | nset (l : List CAtom)    -- [^...]
  | dot (dotall : Bool)      -- .  ('\n' excluded unless DOTALL)
  | cat (a b : Re)
  | alt (a b : Re)
  | star (a : Re)            -- greedy *
  | lazy (a : Re)            -- lazy *?
  | plus (a : Re)            -- greedy +
  | opt (a : Re)             -- greedy ?
  | grp (i : Nat) (a : Re)   -- capturing group i
deriving Repr

/-- Group captures: (index, start, end); most recent capture first. -/
abbrev Groups := List (Nat × Nat × Nat)

/-- Backtracking matcher in continuation style.  `fuel` bounds the depth of
the search; every call below strictly decreases it, and the patterns used
here only repeat expressions that consume at least one character, so a fuel
of (length + 2) * (pattern size + 2) is always sufficient. -/
def mtch : Nat → Re → List Char → Nat → Groups →
    (Nat → Groups → Option (Nat × Groups)) → Option (Nat × Groups)
  | 0, _, _, _, _, _ => none
  | Nat.succ f, r, s, pos, g, k =>
    match r with
    | .eps => k pos g
    | .bos => if pos == 0 then k pos g else none
    | .one a =>
      match s.get? pos with
      | some c => if catomMatch a c then k (pos + 1) g else none
      | none => none
    | .cset l =>
      match s.get? pos with
      | some c => if l.any (fun a => catomMatch a c) then k (pos + 1) g else none
      | none => none
    | .nset l =>
      match s.get? pos with
      | some c => if l.any (fun a => catomMatch a c) then none else k (pos + 1) g
      | none => none
    | .dot da =>
      match s.get? pos with
      | some c => if da || c ≠ '\n' then k (pos + 1) g else none
      | none => none
    | .cat a b => mtch f a s pos g (fun p g2 => mtch f b s p g2 k)
    | .alt a b =>
      match mtch f a s pos g k with
      | some res => some res
      | none => mtch f b s pos g k
    | .opt a =>
      match mtch f a s pos g k with
      | some res => some res
      | none => k pos g
    | .star a =>
      match mtch f a s pos g
          (fun p g2 => if p == pos then none else mtch f (.star a) s p g2 k) with
      | some res => some res
      | none => k pos g
    | .lazy a =>
      match k pos g with
      | some res => some res
      | none =>
        mtch f a s pos g
          (fun p g2 => if p == pos then none else mtch f (.lazy a) s p g2 k)
    | .plus a => mtch f a s pos g (fun p g2 => mtch f (.star a) s p g2 k)
    | .grp i a => mtch f a s pos g (fun p g2 => k p ((i, pos, p) :: g2))

def reSize : Re → Nat
  | .eps | .bos | .one _ | .cset _ | .nset _ | .dot _ => 1
  | .cat a b | .alt a b => reSize a + reSize b + 1
  | .star a | .lazy a | .plus a | .opt a | .grp _ a => reSize a + 1

/-- Attempt a match of `r` at position `pos` of `s` (like re-engine anchored
trial at one position). Returns the end position and the captures. -/
def matchAt (r : Re) (s : List Char) (pos : Nat) : Option (Nat × Groups) :=
  mtch ((s.length + 2) * (reSize r + 2)) r s pos [] (fun p g => some (p, g))

/-- One match result: (start, end, groups). -/
abbrev MatchRes := Nat × Nat × Groups

def searchAux : Nat → Re → List Char → Nat → Option MatchRes
  | 0, _, _, _ => none
  | Nat.succ f, r, s, pos =>
    match matchAt r s pos with
    | some (e, g) => some (pos, e, g)
    | none => if pos < s.length then searchAux f r s (pos + 1) else none

/-- Model of re.search: leftmost match, trying start positions 0,1,... -/
def search (r : Re) (s : List Char) : Option MatchRes :=
  searchAux (s.length + 1) r s 0

def finditerAux : Nat → Re → List Char → Nat → List MatchRes
  | 0, _, _, _ => []
  | Nat.succ f, r, s, pos =>
    if pos > s.length then []
    else
      match searchAux (s.length + 1 - pos) r s pos with
      | none => []
      | some (st, en, g) =>
        (st, en, g) :: finditerAux f r s (if en == st then en + 1 else en)

/-- Model of re.finditer: non-overlapping matches, continuing from the end
of the previous match (advancing by one on an empty match). -/
def finditer (r : Re) (s : List Char) : List MatchRes :=
  finditerAux (s.length + 1) r s 0

/-- match.group(i): `none` when the group did not participate in the match. -/
def grpStr (s : List Char) (m : MatchRes) (i : Nat) : Option String :=
  match m.2.2.find? (fun t => t.1 == i) with
  | some t => some (String.mk ((s.drop t.2.1).take (t.2.2 - t.2.1)))
  | none => none

def mStart (m : MatchRes) : Nat := m.1
def mEnd (m : MatchRes) : Nat := m.2.1

/-- Python `a or b` over two optional strings (None and "" are falsy),
defaulting to "" when both are falsy. -/
def pyOr (a b : Option String) : String :=
  match a with
  | some sa => if sa = "" then (match b with | some sb => sb | none => "") else sa
  | none => match b with | some sb => sb | none => ""

/-! Regex-building helpers. -/

def rstr (t : String) : Re := t.data.foldr (fun c acc => Re.cat (Re.one (.lit c)) acc) Re.eps
def rcat (l : List Re) : Re := l.foldr Re.cat Re.eps
def ralt (l : List Re) : Re :=
  match l with
  | [] => Re.eps
  | [r] => r
  | r :: rest => Re.alt r (ralt rest)
def wplus : Re := Re.plus (Re.one .word)       -- \w+
def splus : Re := Re.plus (Re.one .space)      -- \s+
def sstar : Re := Re.star (Re.one .space)      -- \s*
/-- \( [^)]* \)  — a parenthesised argument list. -/
def parens : Re := rcat [Re.one (.lit '('), Re.star (Re.nset [.lit ')']), Re.one (.lit ')')]
/-- < [^>]* >  — a generic-parameter bracket. -/
def angles : Re := rcat [Re.one (.lit '<'), Re.star (Re.nset [.lit '>']), Re.one (.lit '>')]

/-! ## Python string helpers -/

/-- Python str.split(sep) for a one-character separator: splits at every
occurrence, keeping empty parts; the result is never empty. -/
def splitChar (sep : Char) : List Char → List (List Char)
  | [] => [[]]
  | c :: cs =>
    if c = sep then [] :: splitChar sep cs
    else
      match splitChar sep cs with
      | h :: t => (c :: h) :: t
      | [] => [[c]]

/-- Python str.split for a separator string (leftmost, non-overlapping);
used for Rust's "::".  `fuel` is the input length. -/
def splitStrAux (sep : List Char) : Nat → List Char → List (List Char)
  | 0, l => [l]
  | Nat.succ f, l =>
    if sep.isPrefixOf l then
      match splitStrAux sep f (l.drop sep.length) with
      | h :: t => [] :: h :: t
      | [] => [[], []]
    else
      match l with
      | [] => [[]]
      | c :: cs =>
        match splitStrAux sep f cs with
        | h :: t => (c :: h) :: t
        | [] => [[c]]

def pySplitStr (s sep : String) : List String :=
  (splitStrAux sep.data (s.data.length + 1) s.data).map (fun l => String.mk l)

def pySplitChar (sep : Char) (s : String) : List String :=
  (splitChar sep s.data).map (fun l => String.mk l)

/-- Python str.strip() with no argument: remove ASCII whitespace from both ends. -/
def pyStrip (s : String) : String :=
  let ws : Char → Bool := fun c => catomMatch .space c
  String.mk (((s.data.dropWhile ws).reverse.dropWhile ws).reverse)

def startsChar (l : List Char) (c : Char) : Bool :=
  match l with
  | x :: _ => x = c
  | [] => false

def strStarts (s pre : String) : Bool := pre.data.isPrefixOf s.data
def strEnds (s suf : String) : Bool := suf.data.isSuffixOf s.data
def strContains (s : String) (c : Char) : Bool := s.data.contains c

/-- Python `x in ys` for string lists. -/
def strMem (x : String) (ys : List String) : Bool := ys.contains x

/-! ## os.path (posixpath) transcriptions -/

def lastIdxOf (c : Char) : List Char → Option Nat
  | [] => none
  | x :: xs =>
    match lastIdxOf c xs with
    | some i => some (i + 1)
    | none => if x = c then some 0 else none

/-- posixpath.dirname: head = p[:rfind('/')+1], stripped of trailing
slashes unless it consists solely of slashes. -/
def dirname (p : String) : String :=
  match lastIdxOf '/' p.data with
  | none => ""
  | some k =>
    let head := p.data.take (k + 1)
    if head.all (fun c => c = '/') then String.mk head
    else String.mk ((head.reverse.dropWhile (fun c => c = '/')).reverse)

/-- posixpath.join for two components. -/
def join2 (a b : String) : String :=
  if startsChar b.data '/' then b
  else if a = "" || strEnds a "/" then a ++ b
  else a ++ "/" ++ b

def join3 (a b c : String) : String := join2 (join2 a b) c

/-- posixpath.normpath. -/
def normpath (p : String) : String :=
  if p = "" then "."
  else
    let l := p.data
    let one := startsChar l '/'
    let two := one && startsChar (l.drop 1) '/' && !(startsChar (l.drop 2) '/')
    let islashes : Nat := if two then 2 else if one then 1 else 0
    let comps : List String := (splitChar '/' l).map (fun x => String.mk x)
    let newComps := comps.foldl (fun acc comp =>
      if comp = "" || comp = "." then acc
      else if comp ≠ ".." || (islashes = 0 && acc = []) || (acc ≠ [] && acc.getLast? = some "..") then
        acc ++ [comp]
      else if acc ≠ [] then acc.dropLast
      else acc) []
    let res := String.mk (List.replicate islashes '/') ++ String.intercalate "/" newComps
    if res = "" then "." else res

/-- posixpath.abspath: paths that are not absolute are joined onto the
working directory `cwd` before normalisation. -/
def abspath (cwd p : String) : String :=
  if startsChar p.data '/' then normpath p else normpath (join2 cwd p)

def commonPrefixLen : List String → List String → Nat
  | a :: as2, b :: bs => if a = b then commonPrefixLen as2 bs + 1 else 0
  | _, _ => 0

/-- posixpath.join(*parts) for a nonempty list of parts. -/
def joinList : List String → String
  | [] => ""
  | h :: t => t.foldl join2 h

/-- posixpath.relpath(path, start); both arguments pass through abspath,
which consults `cwd` for relative inputs. -/
def relpath (cwd path start : String) : String :=
  let pl := ((splitChar '/' (abspath cwd path).data).map (fun x => String.mk x)).filter (fun x => x ≠ "")
  let sl := ((splitChar '/' (abspath cwd start).data).map (fun x => String.mk x)).filter (fun x => x ≠ "")
  let i := commonPrefixLen sl pl
  let rel := List.replicate (sl.length - i) ".." ++ pl.drop i
  if rel = [] then "." else joinList rel

/-! ## Data model

One record type models the per-file result dictionaries of
`CodeAnalyzer`.  Missing dictionary keys are modelled by the listed
defaults, matching the `result.get(key, [])` accesses of the aggregation
code. -/

/-- Python values that appear as parameter defaults in the exact-grammar
(Python) extractor: literal constants, literal containers, or the symbolic
name string produced by `_get_name` for non-literal defaults. -/
inductive PyVal where
  | vInt (n : Int)
  | vStr (s : String)
  | vBool (b : Bool)
  | vNone
  | vList (l : List PyVal)
  | vDict (l : List (PyVal × PyVal))
  | vName (s : String)
deriving Repr

structure ArgInfo where
  name : String
  typ : Option String := none
  dflt : Option PyVal := none
deriving Repr

structure FuncInfo where
  name : String
  args : List ArgInfo := []
  decorators : List String := []
  is_async : Bool := false
  is_method : Bool := false
deriving Repr

structure ClassInfo where
  name : String
  methods : List FuncInfo := []
  bases : List String := []
  decorators : List String := []
  extends_ : Option String := none
  implements : List String := []
  parent : Option String := none
deriving Repr

structure InterfaceInfo where
  name : String
  extends_ : List String := []
  inherits : List String := []
deriving Repr

structure ContractInfo where
  name : String
  inherits : List String := []
  functions : List FuncInfo := []
deriving Repr

structure ImplInfo where
  type_ : String
  trait_ : Option String := none
  methods : List FuncInfo := []
deriving Repr

structure NameInfo where
  name : String
deriving Repr

structure VarInfo where
  name : String
  value_type : String
deriving Repr

structure PyImportEntry where
  module : Option String := none
  name : String
  al : Option String := none
deriving Repr

structure JsImport where
  source : String
  imported : String
deriving Repr

/-- The shapes of entries of a record's "imports" list: Python import
dictionaries, JS/TS import dictionaries, or plain strings
(Java/Solidity/Go/Rust). -/
inductive ImportEntry where
  | py (e : PyImportEntry)
  | js (e : JsImport)
  | plain (s : String)
deriving Repr

structure Record where
  language : String
  imports : List ImportEntry := []
  classes : List ClassInfo := []
  interfaces : List InterfaceInfo := []
  functions : List FuncInfo := []
  vars : List VarInfo := []   -- the "variables" key
  includes : List String := []
  contracts : List ContractInfo := []
  structs : List NameInfo := []
  enums : List NameInfo := []
  impls : List ImplInfo := []
  traits : List NameInfo := []
  dependencies : List String := []
  package : Option String := none
  pragma : Option String := none
  isGeneric : Bool := false
deriving Repr

/-- A parse outcome: either `{"error": msg}` (exactly one key, no
structural data) or a full record. -/
inductive ParseResult where
  | err (msg : String)
  | ok (r : Record)
deriving Repr

/-- Insertion into the insertion-ordered model of a Python `set` of
strings (downstream consumers are order-insensitive: membership tests and
dictionary keyed folds). -/
def addSet (l : List String) (x : String) : List String :=
  if l.contains x then l else l ++ [x]

/-- Truthiness of an optional string (Python: None and "" are falsy). -/
def strOptTruthy : Option String → Bool
  | none => false
  | some s => !(s = "")

/-! ## Scoped-body extraction (`CodeAnalyzer._find_class_content`) -/

/-- The brace scan of `_find_class_content`: starting just after the
opening brace with depth 1, return the index of the brace that brings the
depth to 0, scanning the character list `l` whose head sits at index
`pos` of the whole text. -/
def scanClose : List Char → Nat → Nat → Option Nat
  | [], _, _ => none
  | c :: cs, pos, level =>
    if c = obrace then scanClose cs (pos + 1) (level + 1)
    else if c = cbrace then
      if level = 1 then some pos else scanClose cs (pos + 1) (level - 1)
    else scanClose cs (pos + 1) level

/-- `_find_class_content(start_pos)`: find the first open brace at or
after `startPos`, then the matching close brace; return the enclosed
substring, or `none` ("not found") when either is missing. -/
def findClassContent (content : String) (startPos : Nat) : Option String :=
  let cs := content.data
  match (cs.drop startPos).findIdx? (fun c => c = obrace) with
  | none => none
  | some rel =>
    let bracePos := startPos + rel
    match scanClose (cs.drop (bracePos + 1)) (bracePos + 1) 1 with
    | none => none
    | some i => some (String.mk ((cs.drop (bracePos + 1)).take (i - (bracePos + 1))))

/-! ## JS/TS lexical extractor (`CodeAnalyzer._parse_javascript`) -/

-- import\s+(?:{([^}]+)}|([^;]+))\s+from\s+['"]([^'"]+)['"]
def jsImportRe : Re := rcat [rstr "import", splus,
  Re.alt (rcat [Re.one (.lit obrace), Re.grp 1 (Re.plus (Re.nset [.lit cbrace])), Re.one (.lit cbrace)])
         (Re.grp 2 (Re.plus (Re.nset [.lit ';']))),
  splus, rstr "from", splus, Re.cset [.lit squote, .lit dquote],
  Re.grp 3 (Re.plus (Re.nset [.lit squote, .lit dquote])), Re.cset [.lit squote, .lit dquote]]

-- class\s+(\w+)(?:\s+extends\s+(\w+))?
def jsClassRe : Re := rcat [rstr "class", splus, Re.grp 1 wplus,
  Re.opt (rcat [splus, rstr "extends", splus, Re.grp 2 wplus])]

-- (?:async\s+)?(?:static\s+)?(?:get|set)?\s*(\w+)\s*\([^)]*\)\s*{(?:[^{}]|{[^{}]*})*}
def jsMethodRe : Re := rcat [Re.opt (rcat [rstr "async", splus]), Re.opt (rcat [rstr "static", splus]),
  Re.opt (Re.alt (rstr "get") (rstr "set")), sstar, Re.grp 1 wplus, sstar, parens, sstar,
  Re.one (.lit obrace),
  Re.star (Re.alt (Re.nset [.lit obrace, .lit cbrace])
                  (rcat [Re.one (.lit obrace), Re.star (Re.nset [.lit obrace, .lit cbrace]),
                         Re.one (.lit cbrace)])),
  Re.one (.lit cbrace)]

-- (?:function|const|let|var)\s+(\w+)\s*=?\s*(?:\([^)]*\)|\([^)]*\)\s*=>\s*)
def jsFunctionRe : Re := rcat [ralt [rstr "function", rstr "const", rstr "let", rstr "var"], splus,
  Re.grp 1 wplus, sstar, Re.opt (Re.one (.lit '=')), sstar,
  Re.alt parens (rcat [parens, sstar, rstr "=>", sstar])]

/-- Builds one class entry from a `class` match: the method scan is bounded
to the scoped body and runs only when that body is truthy. -/
def jsBuildClass (content : String) (m : MatchRes) : ClassInfo :=
  let cs := content.data
  let classContent := findClassContent content (mEnd m)
  let body := (classContent.getD "").data
  let methods :=
    if strOptTruthy classContent then
      (finditer jsMethodRe body).filterMap (fun mm =>
        let nm := (grpStr body mm 1).getD ""
        if strMem nm ["constructor", "if", "for", "while", "switch"] then none
        else some ({ name := nm } : FuncInfo))
    else []
  { name := (grpStr cs m 1).getD "", extends_ := grpStr cs m 2, methods := methods }

def parseJavascript (content : String) : Record :=
  let cs := content.data
  let importMs := finditer jsImportRe cs
  let imports := importMs.map (fun m =>
    ImportEntry.js { source := (grpStr cs m 3).getD "", imported := pyOr (grpStr cs m 1) (grpStr cs m 2) })
  let dependencies := importMs.foldl (fun s m => addSet s ((grpStr cs m 3).getD "")) []
  let classes := (finditer jsClassRe cs).map (jsBuildClass content)
  let functions := (finditer jsFunctionRe cs).map
    (fun m => ({ name := (grpStr cs m 1).getD "" } : FuncInfo))
  { language := "javascript", imports := imports, classes := classes, functions := functions,
    dependencies := dependencies }

/-! ## Java lexical extractor (`CodeAnalyzer._parse_java`) -/

-- package\s+([^;]+);
def javaPackageRe : Re := rcat [rstr "package", splus,
  Re.grp 1 (Re.plus (Re.nset [.lit ';'])), Re.one (.lit ';')]

-- import\s+([^;]+);
def javaImportRe : Re := rcat [rstr "import", splus,
  Re.grp 1 (Re.plus (Re.nset [.lit ';'])), Re.one (.lit ';')]

-- (?:public|private|protected)?\s+class\s+(\w+)(?:\s+extends\s+(\w+))?(?:\s+implements\s+([^{]+))?
def javaClassRe : Re := rcat [Re.opt (ralt [rstr "public", rstr "private", rstr "protected"]),
  splus, rstr "class", splus, Re.grp 1 wplus,
  Re.opt (rcat [splus, rstr "extends", splus, Re.grp 2 wplus]),
  Re.opt (rcat [splus, rstr "implements", splus, Re.grp 3 (Re.plus (Re.nset [.lit obrace]))])]

-- (?:public|private|protected)?\s+interface\s+(\w+)(?:\s+extends\s+([^{]+))?
def javaInterfaceRe : Re := rcat [Re.opt (ralt [rstr "public", rstr "private", rstr "protected"]),
  splus, rstr "interface", splus, Re.grp 1 wplus,
  Re.opt (rcat [splus, rstr "extends", splus, Re.grp 2 (Re.plus (Re.nset [.lit obrace]))])]

def splitTrim (s : String) : List String := (pySplitChar ',' s).map pyStrip

def parseJava (content : String) : Record :=
  let cs := content.data
  let package := (search javaPackageRe cs).bind (fun m => grpStr cs m 1)
  let importMs := finditer javaImportRe cs
  let imports := importMs.map (fun m => ImportEntry.plain ((grpStr cs m 1).getD ""))
  let dependencies := importMs.foldl (fun s m => addSet s ((grpStr cs m 1).getD "")) []
  let classes := (finditer javaClassRe cs).map (fun m =>
    ({ name := (grpStr cs m 1).getD "", extends_ := grpStr cs m 2,
       implements := match grpStr cs m 3 with
         | some g => splitTrim g
         | none => [] } : ClassInfo))
  let interfaces := (finditer javaInterfaceRe cs).map (fun m =>
    ({ name := (grpStr cs m 1).getD "",
       extends_ := match grpStr cs m 2 with
         | some g => splitTrim g
         | none => [] } : InterfaceInfo))
  { language := "java", package := package, imports := imports, classes := classes,
    interfaces := interfaces, dependencies := dependencies }

/-! ## C/C++ lexical extractor (`CodeAnalyzer._parse_cpp`) -/

-- #include\s+[<"]([^>"]+)[>"]   — the brackets/quotes are NOT captured
def cppIncludeRe : Re := rcat [rstr "#include", splus, Re.cset [.lit '<', .lit dquote],
  Re.grp 1 (Re.plus (Re.nset [.lit '>', .lit dquote])), Re.cset [.lit '>', .lit dquote]]

-- (?:class|struct)\s+(\w+)(?:\s*:\s*(?:public|private|protected)?\s*(\w+))?
def cppClassRe : Re := rcat [Re.alt (rstr "class") (rstr "struct"), splus, Re.grp 1 wplus,
  Re.opt (rcat [sstar, Re.one (.lit ':'), sstar,
    Re.opt (ralt [rstr "public", rstr "private", rstr "protected"]), sstar, Re.grp 2 wplus])]

-- (?:virtual\s+)?(?:static\s+)?(?:\w+(?:::\w+)?(?:<[^>]*>)?)\s+(\w+)\s*\([^)]*\)
def cppFunctionRe : Re := rcat [Re.opt (rcat [rstr "virtual", splus]),
  Re.opt (rcat [rstr "static", splus]),
  wplus, Re.opt (rcat [rstr "::", wplus]), Re.opt angles,
  splus, Re.grp 1 wplus, sstar, parens]

def parseCpp (content : String) : Record :=
  let cs := content.data
  let includeMs := finditer cppIncludeRe cs
  let includes := includeMs.map (fun m => (grpStr cs m 1).getD "")
  let dependencies := includeMs.foldl (fun s m => addSet s ((grpStr cs m 1).getD "")) []
  let classes := (finditer cppClassRe cs).map (fun m =>
    ({ name := (grpStr cs m 1).getD "", parent := grpStr cs m 2 } : ClassInfo))
  let functions := (finditer cppFunctionRe cs).filterMap (fun m =>
    let nm := (grpStr cs m 1).getD ""
    if strMem nm ["if", "for", "while", "switch"] then none
    else some ({ name := nm } : FuncInfo))
  { language := "c++", includes := includes, classes := classes, functions := functions,
    dependencies := dependencies }

/-! ## Solidity lexical extractor (`CodeAnalyzer._parse_solidity`) -/

-- pragma\s+solidity\s+([^;]+);
def solPragmaRe : Re := rcat [rstr "pragma", splus, rstr "solidity", splus,
  Re.grp 1 (Re.plus (Re.nset [.lit ';'])), Re.one (.lit ';')]

-- import\s+(?:"([^"]+)"|'([^']+)')
def solImportRe : Re := rcat [rstr "import", splus,
  Re.alt (rcat [Re.one (.lit dquote), Re.grp 1 (Re.plus (Re.nset [.lit dquote])), Re.one (.lit dquote)])
         (rcat [Re.one (.lit squote), Re.grp 2 (Re.plus (Re.nset [.lit squote])), Re.one (.lit squote)])]

-- contract\s+(\w+)(?:\s+is\s+([^{]+))?
def solContractRe : Re := rcat [rstr "contract", splus, Re.grp 1 wplus,
  Re.opt (rcat [splus, rstr "is", splus, Re.grp 2 (Re.plus (Re.nset [.lit obrace]))])]

-- function\s+(\w+)\s*\([^)]*\)\s*(?:public|private|internal|external)?(?:\s+view|\s+pure|\s+payable)?\s*(?:returns\s*\([^)]*\))?\s*[{;]
def solFunctionRe : Re := rcat [rstr "function", splus, Re.grp 1 wplus, sstar, parens, sstar,
  Re.opt (ralt [rstr "public", rstr "private", rstr "internal", rstr "external"]),
  Re.opt (ralt [rcat [splus, rstr "view"], rcat [splus, rstr "pure"], rcat [splus, rstr "payable"]]),
  sstar, Re.opt (rcat [rstr "returns", sstar, parens]), sstar, Re.cset [.lit obrace, .lit ';']]

-- interface\s+(\w+)(?:\s+is\s+([^{]+))?
def solInterfaceRe : Re := rcat [rstr "interface", splus, Re.grp 1 wplus,
  Re.opt (rcat [splus, rstr "is", splus, Re.grp 2 (Re.plus (Re.nset [.lit obrace]))])]

/-- Builds one contract entry from a `contract` match; the nested function
scan runs only when the scoped body is truthy (non-`None`, non-empty). -/
def solBuildContract (content : String) (m : MatchRes) : ContractInfo :=
  let cs := content.data
  let inherits := match grpStr cs m 2 with
    | some g => splitTrim g
    | none => []
  let contractContent := findClassContent content (mEnd m)
  let body := (contractContent.getD "").data
  let functions :=
    if strOptTruthy contractContent then
      (finditer solFunctionRe body).map (fun mm => ({ name := (grpStr body mm 1).getD "" } : FuncInfo))
    else []
  { name := (grpStr cs m 1).getD "", inherits := inherits, functions := functions }

def parseSolidity (content : String) : Record :=
  let cs := content.data
  let pragma := (search solPragmaRe cs).bind (fun m => grpStr cs m 1)
  let importMs := finditer solImportRe cs
  let imports := importMs.map (fun m => ImportEntry.plain (pyOr (grpStr cs m 1) (grpStr cs m 2)))
  let dependencies := importMs.foldl (fun s m => addSet s (pyOr (grpStr cs m 1) (grpStr cs m 2))) []
  let contracts := (finditer solContractRe cs).map (solBuildContract content)
  let interfaces := (finditer solInterfaceRe cs).map (fun m =>
    ({ name := (grpStr cs m 1).getD "",
       inherits := match grpStr cs m 2 with
         | some g => splitTrim g
         | none => [] } : InterfaceInfo))
  { language := "solidity", pragma := pragma, imports := imports, contracts := contracts,
    interfaces := interfaces, dependencies := dependencies }

/-! ## Go lexical extractor (`CodeAnalyzer._parse_golang`) -/

-- package\s+(\w+)
def goPackageRe : Re := rcat [rstr "package", splus, Re.grp 1 wplus]

-- import\s+\(\s*(.*?)\s*\)   with re.DOTALL
def goImportBlockRe : Re := rcat [rstr "import", splus, Re.one (.lit '('), sstar,
  Re.grp 1 (Re.lazy (Re.dot true)), sstar, Re.one (.lit ')')]

-- (?:[\w._/]+\s+)?"([^"]+)"
def goInnerImportRe : Re := rcat [
  Re.opt (rcat [Re.plus (Re.cset [.word, .lit '.', .lit '_', .lit '/']), splus]),
  Re.one (.lit dquote), Re.grp 1 (Re.plus (Re.nset [.lit dquote])), Re.one (.lit dquote)]

-- import\s+(?:[\w._/]+\s+)?"([^"]+)"
def goSingleImportRe : Re := rcat [rstr "import", splus,
  Re.opt (rcat [Re.plus (Re.cset [.word, .lit '.', .lit '_', .lit '/']), splus]),
  Re.one (.lit dquote), Re.grp 1 (Re.plus (Re.nset [.lit dquote])), Re.one (.lit dquote)]

-- type\s+(\w+)\s+struct\s*{
def goStructRe : Re := rcat [rstr "type", splus, Re.grp 1 wplus, splus, rstr "struct", sstar,
  Re.one (.lit obrace)]

-- type\s+(\w+)\s+interface\s*{
def goInterfaceRe : Re := rcat [rstr "type", splus, Re.grp 1 wplus, splus, rstr "interface", sstar,
  Re.one (.lit obrace)]

-- func\s+(?:\(\s*\w+\s+\*?\w+\s*\)\s+)?(\w+)\s*\([^)]*\)
def goFuncRe : Re := rcat [rstr "func", splus,
  Re.opt (rcat [Re.one (.lit '('), sstar, wplus, splus, Re.opt (Re.one (.lit '*')), wplus, sstar,
                Re.one (.lit ')'), splus]),
  Re.grp 1 wplus, sstar, parens]

def parseGolang (content : String) : Record :=
  let cs := content.data
  let package := (search goPackageRe cs).bind (fun m => grpStr cs m 1)
  let importsDeps : List String × List String :=
    match search goImportBlockRe cs with
    | some m =>
      let inner := ((grpStr cs m 1).getD "").data
      (finditer goInnerImportRe inner).foldl
        (fun (acc : List String × List String) mm =>
          let p := (grpStr inner mm 1).getD ""
          (acc.1 ++ [p], addSet acc.2 p)) ([], [])
    | none =>
      (finditer goSingleImportRe cs).foldl
        (fun (acc : List String × List String) mm =>
          let p := (grpStr cs mm 1).getD ""
          (acc.1 ++ [p], addSet acc.2 p)) ([], [])
  let structs := (finditer goStructRe cs).map (fun m => ({ name := (grpStr cs m 1).getD "" } : NameInfo))
  let interfaces := (finditer goInterfaceRe cs).map (fun m =>
    ({ name := (grpStr cs m 1).getD "" } : InterfaceInfo))
  let functions := (finditer goFuncRe cs).map (fun m => ({ name := (grpStr cs m 1).getD "" } : FuncInfo))
  { language := "go", package := package, imports := importsDeps.1.map ImportEntry.plain,
    structs := structs, interfaces := interfaces, functions := functions,
    dependencies := importsDeps.2 }

/-! ## Rust lexical extractor (`CodeAnalyzer._parse_rust`) -/

-- use\s+([^;]+);
def rustUseRe : Re := rcat [rstr "use", splus, Re.grp 1 (Re.plus (Re.nset [.lit ';'])), Re.one (.lit ';')]

-- struct\s+(\w+)(?:<[^>]*>)?\s*(?:\([^)]*\)|{)
def rustStructRe : Re := rcat [rstr "struct", splus, Re.grp 1 wplus, Re.opt angles, sstar,
  Re.alt parens (Re.one (.lit obrace))]

-- enum\s+(\w+)(?:<[^>]*>)?\s*{
def rustEnumRe : Re := rcat [rstr "enum", splus, Re.grp 1 wplus, Re.opt angles, sstar,
  Re.one (.lit obrace)]

-- impl(?:<[^>]*>)?\s+(?:(\w+)\s+for\s+)?(\w+)(?:<[^>]*>)?\s*{
def rustImplRe : Re := rcat [rstr "impl", Re.opt angles, splus,
  Re.opt (rcat [Re.grp 1 wplus, splus, rstr "for", splus]),
  Re.grp 2 wplus, Re.opt angles, sstar, Re.one (.lit obrace)]

-- (?:pub\s+)?fn\s+(\w+)\s*\([^)]*\)   (both the method and the function pattern)
def rustFnRe : Re := rcat [Re.opt (rcat [rstr "pub", splus]), rstr "fn", splus, Re.grp 1 wplus,
  sstar, parens]

-- trait\s+(\w+)(?:<[^>]*>)?\s*(?::\s*[^{]+)?{
def rustTraitRe : Re := rcat [rstr "trait", splus, Re.grp 1 wplus, Re.opt angles, sstar,
  Re.opt (rcat [Re.one (.lit ':'), sstar, Re.plus (Re.nset [.lit obrace])]), Re.one (.lit obrace)]

-- impl(?:<[^>]*>)?\s+(?:\w+\s+for\s+)?\w+(?:<[^>]*>)?\s*{   (in _get_impl_ranges)
def rustImplRangeRe : Re := rcat [rstr "impl", Re.opt angles, splus,
  Re.opt (rcat [wplus, splus, rstr "for", splus]), wplus, Re.opt angles, sstar, Re.one (.lit obrace)]

/-- Builds one impl entry from an `impl` match: the method scan is bounded
to the scoped body (computed from the match end, which already sits past
the opening brace) and runs only when that body is truthy. -/
def rustBuildImpl (content : String) (m : MatchRes) : ImplInfo :=
  let cs := content.data
  let implContent := findClassContent content (mEnd m)
  let body := (implContent.getD "").data
  let methods :=
    if strOptTruthy implContent then
      (finditer rustFnRe body).map (fun mm => ({ name := (grpStr body mm 1).getD "" } : FuncInfo))
    else []
  { type_ := (grpStr cs m 2).getD "", trait_ := grpStr cs m 1, methods := methods }

/-- The brace scan of `_get_impl_ranges`: depth starts at 0 and the index
where it would reach −1 is returned. -/
def scanImplEnd : List Char → Nat → Nat → Option Nat
  | [], _, _ => none
  | c :: cs, pos, level =>
    if c = obrace then scanImplEnd cs (pos + 1) (level + 1)
    else if c = cbrace then
      if level = 0 then some pos else scanImplEnd cs (pos + 1) (level - 1)
    else scanImplEnd cs (pos + 1) level

/-- `_get_impl_ranges`: (start, end) spans of impl blocks; an end position
of 0 is dropped because Python tests `if end_pos:`. -/
def getImplRanges (content : String) : List (Nat × Nat) :=
  (finditer rustImplRangeRe content.data).foldl (fun ranges m =>
    match scanImplEnd (content.data.drop (mEnd m)) (mEnd m) 0 with
    | some e => if e ≠ 0 then ranges ++ [(mStart m, e)] else ranges
    | none => ranges) []

def parseRust (content : String) : Record :=
  let cs := content.data
  let useMs := finditer rustUseRe cs
  let imports := useMs.map (fun m => ImportEntry.plain ((grpStr cs m 1).getD ""))
  let dependencies := useMs.foldl (fun s m =>
    addSet s ((pySplitStr ((grpStr cs m 1).getD "") "::").headD "")) []
  let structs := (finditer rustStructRe cs).map (fun m => ({ name := (grpStr cs m 1).getD "" } : NameInfo))
  let enums := (finditer rustEnumRe cs).map (fun m => ({ name := (grpStr cs m 1).getD "" } : NameInfo))
  let impls := (finditer rustImplRe cs).map (rustBuildImpl content)
  let traits := (finditer rustTraitRe cs).map (fun m => ({ name := (grpStr cs m 1).getD "" } : NameInfo))
  let functions := (finditer rustFnRe cs).filterMap (fun m =>
    if (getImplRanges content).any (fun se => mStart m > se.1 && mEnd m < se.2) then none
    else some ({ name := (grpStr cs m 1).getD "" } : FuncInfo))
  { language := "rust", imports := imports, structs := structs, enums := enums, impls := impls,
    traits := traits, functions := functions, dependencies := dependencies }

/-! ## Generic fallback extractor (`_parse_generic`, `_detect_language`) -/

-- ^\s*<[?!]
def dHtml1 : Re := rcat [Re.bos, sstar, Re.one (.lit '<'), Re.cset [.lit '?', .lit '!']]
-- <html  (IGNORECASE)
def dHtml2 : Re := rcat [Re.one (.lit '<'), Re.cset [.lit 'h', .lit 'H'], Re.cset [.lit 't', .lit 'T'],
  Re.cset [.lit 'm', .lit 'M'], Re.cset [.lit 'l', .lit 'L']]
-- import\s+React|<\/?[A-Z][A-Za-z]*>
def dJsx : Re := Re.alt (rcat [rstr "import", splus, rstr "React"])
  (rcat [Re.one (.lit '<'), Re.opt (Re.one (.lit '/')), Re.one (.rng 'A' 'Z'),
         Re.star (Re.cset [.rng 'A' 'Z', .rng 'a' 'z']), Re.one (.lit '>')])
-- import\s+[{[]\s*.*?\s*[}\]]\s+from
def dJs : Re := rcat [rstr "import", splus, Re.cset [.lit obrace, .lit '['], sstar,
  Re.lazy (Re.dot false), sstar, Re.cset [.lit cbrace, .lit ']'], splus, rstr "from"]
-- package\s+[\w.]+;|import\s+[\w.]+;|public\s+class
def dJava : Re := ralt [
  rcat [rstr "package", splus, Re.plus (Re.cset [.word, .lit '.']), Re.one (.lit ';')],
  rcat [rstr "import", splus, Re.plus (Re.cset [.word, .lit '.']), Re.one (.lit ';')],
  rcat [rstr "public", splus, rstr "class"]]
-- #include\s+<[\w.]+>|void\s+\w+\s*\(
def dCpp : Re := Re.alt
  (rcat [rstr "#include", splus, Re.one (.lit '<'), Re.plus (Re.cset [.word, .lit '.']), Re.one (.lit '>')])
  (rcat [rstr "void", splus, wplus, sstar, Re.one (.lit '(')])
-- def\s+\w+\s*\(.*\):|import\s+\w+|from\s+\w+\s+import
def dPython : Re := ralt [
  rcat [rstr "def", splus, wplus, sstar, Re.one (.lit '('), Re.star (Re.dot false),
        Re.one (.lit ')'), Re.one (.lit ':')],
  rcat [rstr "import", splus, wplus],
  rcat [rstr "from", splus, wplus, splus, rstr "import"]]
-- package\s+\w+|func\s+\w+\s*\(|import\s+\(
def dGo : Re := ralt [
  rcat [rstr "package", splus, wplus],
  rcat [rstr "func", splus, wplus, sstar, Re.one (.lit '(')],
  rcat [rstr "import", splus, Re.one (.lit '(')]]
-- use\s+\w+::|fn\s+\w+\s*\(|impl\s+
def dRust : Re := ralt [
  rcat [rstr "use", splus, wplus, rstr "::"],
  rcat [rstr "fn", splus, wplus, sstar, Re.one (.lit '(')],
  rcat [rstr "impl", splus]]
-- pragma\s+solidity|contract\s+\w+|function\s+\w+\s*\(.*\)\s*public
def dSolidity : Re := ralt [
  rcat [rstr "pragma", splus, rstr "solidity"],
  rcat [rstr "contract", splus, wplus],
  rcat [rstr "function", splus, wplus, sstar, Re.one (.lit '('), Re.star (Re.dot false),
        Re.one (.lit ')'), sstar, rstr "public"]]

def isMatch (r : Re) (s : List Char) : Bool := (search r s).isSome

def detectLanguage (content : String) : String :=
  let cs := content.data
  if isMatch dHtml1 cs || isMatch dHtml2 cs then "html"
  else if isMatch dJsx cs then "jsx/tsx"
  else if isMatch dJs cs then "javascript/typescript"
  else if isMatch dJava cs then "java"
  else if isMatch dCpp cs then "c/c++"
  else if isMatch dPython cs then "python"
  else if isMatch dGo cs then "go"
  else if isMatch dRust cs then "rust"
  else if isMatch dSolidity cs then "solidity"
  else "unknown"

def genFuncRes : List Re := [
  rcat [rstr "function", splus, Re.grp 1 wplus, sstar, Re.one (.lit '(')],
  rcat [rstr "def", splus, Re.grp 1 wplus, sstar, Re.one (.lit '(')],
  rcat [rstr "sub", splus, Re.grp 1 wplus, sstar, Re.one (.lit obrace)],
  rcat [rstr "func", splus, Re.grp 1 wplus, sstar, Re.one (.lit '(')],
  rcat [rstr "void", splus, Re.grp 1 wplus, sstar, Re.one (.lit '(')],
  rcat [rstr "int", splus, Re.grp 1 wplus, sstar, Re.one (.lit '(')],
  rcat [rstr "string", splus, Re.grp 1 wplus, sstar, Re.one (.lit '(')],
  rcat [rstr "static", splus, wplus, splus, Re.grp 1 wplus, sstar, Re.one (.lit '(')]]

def genClassRes : List Re := [
  rcat [rstr "class", splus, Re.grp 1 wplus],
  rcat [rstr "interface", splus, Re.grp 1 wplus],
  rcat [rstr "struct", splus, Re.grp 1 wplus],
  rcat [rstr "type", splus, Re.grp 1 wplus, splus, rstr "struct"],
  rcat [rstr "trait", splus, Re.grp 1 wplus],
  rcat [rstr "module", splus, Re.grp 1 wplus]]

def parseGeneric (content : String) : Record :=
  let cs := content.data
  let functions := genFuncRes.foldl (fun fns r =>
    (finditer r cs).foldl (fun fns2 m =>
      let nm := (grpStr cs m 1).getD ""
      if (fns2.map (fun f => f.name)).contains nm then fns2
      else fns2 ++ [({ name := nm } : FuncInfo)]) fns) []
  let classes := genClassRes.foldl (fun cls r =>
    (finditer r cs).foldl (fun cls2 m =>
      let nm := (grpStr cs m 1).getD ""
      if (cls2.map (fun c => c.name)).contains nm then cls2
      else cls2 ++ [({ name := nm } : ClassInfo)]) cls) []
  { language := detectLanguage content, functions := functions, classes := classes,
    isGeneric := true }

/-! ## Exact-grammar (Python) extractor: AST and `PythonCodeVisitor`

The AST mirrors the `ast` module nodes the visitor inspects; the text to
AST step (`ast.parse`) is CPython, modelled as the oracle `pyParse`. -/

inductive PyExpr where
  | name (id : String)
  | attr (value : PyExpr) (a : String)          -- ast.Attribute
  | subscript (value : PyExpr) (sl : PyExpr)    -- ast.Subscript
  | call (f : PyExpr)                           -- ast.Call
  | const (v : PyVal)                           -- ast.Constant
  | elist (l : List PyExpr)
  | etuple (l : List PyExpr)
  | eset (l : List PyExpr)
  | edict (entries : List (PyExpr × PyExpr))   -- ast.Dict: zip(keys, values)
  | other (cls : String)                        -- any other node; cls is its class name
deriving Repr

/-- Python str() of the constant values reachable in `_get_name`. -/
def pyStr : PyVal → String
  | .vInt n => toString n
  | .vStr s => s
  | .vBool b => if b then "True" else "False"
  | .vNone => "None"
  | .vName s => s
  | .vList _ => "list"     -- unreachable from ast.Constant
  | .vDict _ => "dict"     -- unreachable from ast.Constant

/-- type(value).__name__ for constants, as used by `_get_value_type`. -/
def pyTypeName : PyVal → String
  | .vInt _ => "int"
  | .vStr _ => "str"
  | .vBool _ => "bool"
  | .vNone => "NoneType"
  | _ => "unknown"         -- unreachable from ast.Constant

/-- `_get_name`. -/
def getName : PyExpr → String
  | .name id => id
  | .attr v a => getName v ++ "." ++ a
  | .subscript v sl => getName v ++ "[" ++ getName sl ++ "]"
  | .call f => getName f ++ "()"
  | .const v => pyStr v
  | .elist _ => "List"
  | .etuple _ => "Tuple"
  | .eset _ => "Set"
  | .edict _ => "Dict"
  | .other cls => cls

/- `_get_default_value`: constants keep their value, containers map the
translation over their elements (zip for dictionaries), anything else is
recorded as the symbolic `_get_name` string. -/
mutual

def getDefaultValue : PyExpr → PyVal
  | .const v => v
  | .elist l => .vList (getDefaultValues l)
  | .etuple l => .vList (getDefaultValues l)
  | .eset l => .vList (getDefaultValues l)
  | .edict entries => .vDict (getDefaultPairs entries)
  | .name id => .vName (getName (.name id))
  | .attr v a => .vName (getName (.attr v a))
  | .subscript v sl => .vName (getName (.subscript v sl))
  | .call f => .vName (getName (.call f))
  | .other cls => .vName (getName (.other cls))

def getDefaultValues : List PyExpr → List PyVal
  | [] => []
  | e :: t => getDefaultValue e :: getDefaultValues t

def getDefaultPairs : List (PyExpr × PyExpr) → List (PyVal × PyVal)
  | [] => []
  | (k, v) :: t => (getDefaultValue k, getDefaultValue v) :: getDefaultPairs t

end

/-- `_get_value_type`. -/
def getValueType : PyExpr → String
  | .const v => pyTypeName v
  | .elist _ => "list"
  | .etuple _ => "tuple"
  | .edict _ => "dict"
  | .eset _ => "set"
  | .name id => id
  | .call f => getName f
  | _ => "unknown"

structure PyArg where
  name : String
  annot : Option PyExpr := none
deriving Repr

structure PyArgsNode where
  args : List PyArg := []
  defaults : List PyExpr := []
deriving Repr

inductive PyStmt where
  | classDef (nm : String) (bases : List PyExpr) (body : List PyStmt) (decorator_list : List PyExpr)
  | funcDef (nm : String) (args : PyArgsNode) (body : List PyStmt) (decorator_list : List PyExpr)
  | asyncFuncDef (nm : String) (args : PyArgsNode) (body : List PyStmt) (decorator_list : List PyExpr)
  | imp (names : List (String × Option String))                      -- ast.Import
  | importFrom (module : Option String) (names : List (String × Option String))
  | assign (targets : List PyExpr) (value : PyExpr)
  | passStmt
  | block (body : List PyStmt)   -- compound statements (If/For/While/With/Try): children visited
  | otherStmt
deriving Repr

structure PyModule where
  body : List PyStmt
deriving Repr

/-- `_get_args`: build one entry per positional argument, then attach the
trailing defaults at offset len(args) − len(defaults). -/
def getArgs (a : PyArgsNode) : List ArgInfo :=
  let base := a.args.map (fun ar =>
    ({ name := ar.name,
       typ := match ar.annot with
         | some an => some (getName an)
         | none => none } : ArgInfo))
  let off := a.args.length - a.defaults.length
  base.mapIdx (fun j ai =>
    if j < off then ai
    else
      match a.defaults.get? (j - off) with
      | some d => { ai with dflt := some (getDefaultValue d) }
      | none => ai)

/-- `_process_function`. -/
def processFunction (nm : String) (a : PyArgsNode) (decs : List PyExpr) (isAsync : Bool) : FuncInfo :=
  { name := nm, args := getArgs a, decorators := decs.map getName, is_async := isAsync }

/-- The visitor's instance state. -/
structure VisitSt where
  imports : List PyImportEntry := []
  classes : List ClassInfo := []
  functions : List FuncInfo := []
  vars : List VarInfo := []
  dependencies : List String := []
  current_class : Option String := none

/-- Python truthiness of `self.current_class` (None and "" are falsy). -/
def clsFalsy : Option String → Bool
  | none => true
  | some s => s = ""

/- The visitor.  Each case transcribes the corresponding `visit_*`
method; `generic_visit` is the recursive descent into child statements
(child expressions have no statement children and no visitor methods, so
visiting them changes nothing).  Note the source restores
`self.current_class` BEFORE calling `generic_visit` in `visit_ClassDef`. -/
mutual

def visitStmt (st : VisitSt) : PyStmt → VisitSt
  | .imp names =>
    names.foldl (fun st2 na =>
      { st2 with imports := st2.imports ++ [{ name := na.1, al := na.2 }],
                 dependencies := addSet st2.dependencies na.1 }) st
  | .importFrom module names =>
    (match module with
     | some m =>
       if m = "" then st
       else
         let st2 := { st with dependencies := addSet st.dependencies m }
         names.foldl (fun st3 na =>
           { st3 with imports := st3.imports ++ [{ module := some m, name := na.1, al := na.2 }] }) st2
     | none => st)
  | .classDef nm bases body decs =>
    let old := st.current_class
    let st1 := { st with current_class := some nm }
    let methods := body.filterMap (fun s =>
      match s with
      | .funcDef n a _ d => some { processFunction n a d false with is_method := true }
      | _ => none)
    let ci : ClassInfo := { name := nm, methods := methods, bases := bases.map getName,
                            decorators := decs.map getName }
    let st2 := { st1 with classes := st1.classes ++ [ci], current_class := old }
    visitList st2 body
  | .funcDef nm a body decs =>
    let st1 :=
      if clsFalsy st.current_class then
        { st with functions := st.functions ++ [processFunction nm a decs false] }
      else st
    visitList st1 body
  | .asyncFuncDef nm a body decs =>
    let st1 :=
      if clsFalsy st.current_class then
        { st with functions := st.functions ++ [processFunction nm a decs true] }
      else st
    visitList st1 body
  | .assign targets value =>
    if clsFalsy st.current_class then
      { st with vars := st.vars ++ targets.filterMap (fun t =>
          match t with
          | .name id => some ({ name := id, value_type := getValueType value } : VarInfo)
          | _ => none) }
    else st
  | .passStmt => st
  | .block body => visitList st body
  | .otherStmt => st

def visitList (st : VisitSt) : List PyStmt → VisitSt
  | [] => st
  | s :: rest => visitList (visitStmt st s) rest

end

/-- `_extract_python_structure`. -/
def extractPythonStructure (m : PyModule) : Record :=
  let st := visitList {} m.body
  { language := "python", imports := st.imports.map ImportEntry.py, classes := st.classes,
    functions := st.functions, vars := st.vars, dependencies := st.dependencies }

/-- `_parse_python`: `ast.parse` failures (SyntaxError or any exception)
produce a record carrying only an error message. -/
def parsePython (pyParse : String → Except String PyModule) (content : String) : ParseResult :=
  match pyParse content with
  | .ok m => .ok (extractPythonStructure m)
  | .error e => .err ("cannot parse Python code: " ++ e)

/-! ## `CodeAnalyzer.parse` dispatch and dependency classifier -/

/-- The extension dispatch in `parse` (lines 52–68). -/
def parseDispatch (pyParse : String → Except String PyModule) (path content : String) : ParseResult :=
  if strEnds path ".py" then parsePython pyParse content
  else if strEnds path ".js" || strEnds path ".jsx" || strEnds path ".ts" || strEnds path ".tsx" then
    .ok (parseJavascript content)
  else if strEnds path ".java" then .ok (parseJava content)
  else if strEnds path ".c" || strEnds path ".cpp" || strEnds path ".h" || strEnds path ".hpp" then
    .ok (parseCpp content)
  else if strEnds path ".sol" then .ok (parseSolidity content)
  else if strEnds path ".go" then .ok (parseGolang content)
  else if strEnds path ".rs" then .ok (parseRust content)
  else .ok (parseGeneric content)

/-- A fresh `CodeAnalyzer(full_path).parse()`: read the file (errors give
an error record), then dispatch on the extension. -/
def parseFile (pyParse : String → Except String PyModule)
    (read : String → Except String String) (path : String) : ParseResult :=
  match read path with
  | .error e => .err ("could not read file: " ++ e)
  | .ok c => parseDispatch pyParse path c

/-- Dictionary assignment `d[k] = v` over an association list. -/
def dinsert {β : Type} : List (String × β) → String → β → List (String × β)
  | [], k, v => [(k, v)]
  | (k2, w) :: t, k, v => if k2 = k then (k, v) :: t else (k2, w) :: dinsert t k v

/-- imp.get("name", "") — only Python import dictionaries carry "name". -/
def importName : ImportEntry → String
  | .py e => e.name
  | _ => ""

/-- imp.get("source", "") — only JS import dictionaries carry "source". -/
def importSource : ImportEntry → String
  | .js e => e.source
  | _ => ""

/-- The plain string shape of Java/Go/Rust/Solidity import entries. -/
def importPlain : ImportEntry → String
  | .plain s => s
  | _ => ""

/-- The per-language internal/external rules of `get_dependency_graph`
(lines 667–720), applied to an already parsed record.  Note that
`_parse_cpp` tags its records "c++" while the classifier branch tests
"c/c++", and that generic records ("c/c++", "jsx/tsx", ...) carry no
imports/includes, so those branches produce nothing. -/
def classifyDeps (r : Record) : List (String × Bool) :=
  if r.language = "python" then
    r.imports.foldl (fun d e => dinsert d (importName e) (strStarts (importName e) ".")) []
  else if r.language = "javascript" || r.language = "jsx/tsx" then
    r.imports.foldl (fun d e => dinsert d (importSource e) (strStarts (importSource e) ".")) []
  else if r.language = "java" then
    r.imports.foldl (fun d e =>
      let imp := importPlain e
      if strContains imp '.' then
        dinsert d ((pySplitChar '.' imp).headD "") (strStarts imp ".")
      else dinsert d imp false) []
  else if r.language = "c/c++" then
    r.includes.foldl (fun d inc =>
      dinsert d inc (!(strStarts inc "<" && strEnds inc ">"))) []
  else if r.language = "go" then
    r.imports.foldl (fun d e =>
      let imp := importPlain e
      dinsert d imp (strContains imp '/' && !(strStarts imp "github.com/"))) []
  else if r.language = "rust" then
    r.imports.foldl (fun d e =>
      let p0 := (pySplitStr (importPlain e) "::").headD ""
      dinsert d p0 (!(strMem p0 ["std", "core", "alloc"]))) []
  else if r.language = "solidity" then
    r.imports.foldl (fun d e =>
      let imp := importPlain e
      dinsert d imp (strStarts imp "./" || strStarts imp "../")) []
  else []

/-- `get_dependency_graph`: a parse failure yields an error, otherwise the
classified dependency dictionary. -/
def getDependencyGraph (pyParse : String → Except String PyModule)
    (read : String → Except String String) (path : String) :
    Except String (List (String × Bool)) :=
  match parseFile pyParse read path with
  | .err _ => .error "cannot build dependency graph"
  | .ok r => .ok (classifyDeps r)

/-! ## Relative import resolver (`ProjectAnalyzer._resolve_relative_import`) -/

def possibleExtensions : List String :=
  [".py", ".js", ".jsx", ".ts", ".tsx", ".java", ".go", ".rs", ".sol"]

/-- The `while path.startswith('.')` loop: strip leading dots, counting
them in `level`. -/
def stripDotsLoop : List Char → Nat → List Char × Nat
  | c :: cs, k => if c = '.' then stripDotsLoop cs (k + 1) else (c :: cs, k)
  | [], k => ([], k)

/-- The `for _ in range(level - 1): source_dir = os.path.dirname(source_dir)`
climb loop. -/
def climbLoop (d : String) : Nat → String
  | 0 => d
  | Nat.succ n => climbLoop (dirname d) n

/-- path.replace('.', '/') for the one-character pattern. -/
def replDots (s : String) : String :=
  String.mk (s.data.map (fun c => if c = '.' then '/' else c))

/-- The probe loop over `possible_extensions`: direct candidate first, and
for '.py' additionally the package `__init__.py` candidate. -/
def probeExtsAux (projPath cwd : String) (inv : List String) (sourceDir modulePath : String) :
    List String → Option String
  | [] => none
  | ext :: rest =>
    let fullPath := normpath (join2 sourceDir (modulePath ++ ext))
    let relativePath := relpath cwd fullPath projPath
    if strMem relativePath inv then some relativePath
    else if ext = ".py" then
      let initPath := normpath (join3 sourceDir modulePath "__init__.py")
      let initRel := relpath cwd initPath projPath
      if strMem initRel inv then some initRel
      else probeExtsAux projPath cwd inv sourceDir modulePath rest
    else probeExtsAux projPath cwd inv sourceDir modulePath rest

def probeExts (projPath cwd : String) (inv : List String) (sourceDir modulePath : String) :
    Option String :=
  probeExtsAux projPath cwd inv sourceDir modulePath possibleExtensions

/-- `_resolve_relative_import(source_file, import_path)`. -/
def resolveRelativeImport (projPath cwd : String) (inv : List String)
    (sourceFile importPath : String) : Option String :=
  if !(strStarts importPath ".") then none
  else
    let sd0 := dirname sourceFile
    let pr := stripDotsLoop importPath.data 0
    let sourceDir := climbLoop sd0 (pr.2 - 1)
    probeExts projPath cwd inv sourceDir (replDots (String.mk pr.1))

/-! ## Project analyzer (`ProjectAnalyzer`) -/

structure ProjectSummary where
  files : Nat
  analyzed_files : Nat
  file_types : List (String × Nat)
  language_stats : List (String × Nat)
  class_count : Nat
  function_count : Nat
  external_dependencies : List String
  internal_dependencies : List (String × List String)
deriving Repr

/-- Histogram increment `d[k] = d.get(k, 0) + 1`. -/
def hInc : List (String × Nat) → String → List (String × Nat)
  | [], k => [(k, 1)]
  | (k2, v) :: t, k => if k2 = k then (k2, v + 1) :: t else (k2, v) :: hInc t k

/-- Histogram lookup `d.get(k, 0)`. -/
def hLookup : List (String × Nat) → String → Nat
  | [], _ => 0
  | (k2, v) :: t, k => if k2 = k then v else hLookup t k

/-- The binning key of `_count_file_types`:
`path.split('.')[-1] if '.' in path else 'unknown'`. -/
def extKey (p : String) : String :=
  if strContains p '.' then (pySplitChar '.' p).getLastD "" else "unknown"

/-- `_count_file_types`: histogram over ALL input paths. -/
def countFileTypes (paths : List String) : List (String × Nat) :=
  paths.foldl (fun h p => hInc h (extKey p)) []

/-- Lexicographic code-point comparison, as Python compares strings. -/
def strLtL : List Char → List Char → Bool
  | [], [] => false
  | [], _ :: _ => true
  | _ :: _, [] => false
  | a :: as2, b :: bs => if a < b then true else if b < a then false else strLtL as2 bs

def sortInsert (x : String) : List String → List String
  | [] => [x]
  | y :: t => if strLtL x.data y.data then x :: y :: t else y :: sortInsert x t

/-- Python sorted() over strings. -/
def sortStr (l : List String) : List String := l.foldl (fun acc x => sortInsert x acc) []

/-- The per-file analysis loop of `analyze_project`: files whose parse
yields an error record are not entered into `file_analyzers`. -/
def buildFileAnalyzers (pyParse : String → Except String PyModule)
    (read : String → Except String String) (projPath : String) (paths : List String) :
    List (String × Record) :=
  paths.foldl (fun m p =>
    match parseFile pyParse read (join2 projPath p) with
    | .ok r => dinsert m p r
    | .err _ => m) []

def hasErrorKey (deps : List (String × Bool)) : Bool := deps.any (fun d => d.1 = "error")

/-- `_build_dependency_graph`: re-parse each analyzed file (parsing is
deterministic, so the stored record is reused) and keep the classified
dictionary unless it has an "error" key. -/
def buildDependencyGraph (analyzers : List (String × Record)) :
    List (String × List (String × Bool)) :=
  analyzers.foldl (fun m pr =>
    let fileDeps := classifyDeps pr.2
    if hasErrorKey fileDeps then m else dinsert m pr.1 fileDeps) []

/-- `_count_classes` contribution of one record. -/
def declCount (r : Record) : Nat :=
  r.classes.length + r.interfaces.length + r.contracts.length + r.structs.length +
  r.traits.length + r.enums.length

/-- `_count_functions` contribution of one record. -/
def funcCount (r : Record) : Nat :=
  r.functions.length + (r.classes.map (fun c => c.methods.length)).sum +
  (r.impls.map (fun i => i.methods.length)).sum +
  (r.contracts.map (fun c => c.functions.length)).sum

/-- `_extract_external_dependencies`: sorted set of identifiers classified
external (is_internal = false). -/
def extractExternalDeps (depGraph : List (String × List (String × Bool))) : List String :=
  sortStr (depGraph.foldl (fun s pd =>
    pd.2.foldl (fun s2 db => if db.2 then s2 else addSet s2 db.1) s) [])

/-- `_build_internal_dependency_graph`: per file, the targets of its
internally classified identifiers that resolve into the inventory
(unresolved ones are dropped; no deduplication). -/
def buildInternalDeps (projPath cwd : String) (paths : List String)
    (depGraph : List (String × List (String × Bool))) : List (String × List String) :=
  depGraph.foldl (fun m pd =>
    let resolved := pd.2.foldl (fun l db =>
      if db.2 then
        match resolveRelativeImport projPath cwd paths pd.1 db.1 with
        | some t => l ++ [t]
        | none => l
      else l) []
    dinsert m pd.1 resolved) []

/-- `ProjectAnalyzer.analyze_project` followed by
`_generate_project_summary`. -/
def analyzeProject (pyParse : String → Except String PyModule)
    (read : String → Except String String) (cwd projPath : String)
    (filePaths : List String) : ProjectSummary :=
  let fileAnalyzers := buildFileAnalyzers pyParse read projPath filePaths
  let depGraph := buildDependencyGraph fileAnalyzers
  { files := filePaths.length,
    analyzed_files := fileAnalyzers.length,
    file_types := countFileTypes filePaths,
    language_stats := fileAnalyzers.foldl (fun h pr => hInc h pr.2.language) [],
    class_count := fileAnalyzers.foldl (fun n pr => n + declCount pr.2) 0,
    function_count := fileAnalyzers.foldl (fun n pr => n + funcCount pr.2) 0,
    external_dependencies := extractExternalDeps depGraph,
    internal_dependencies := buildInternalDeps projPath cwd filePaths depGraph }

/-! ## Stateful view of `CodeAnalyzer.parse` (for purity/idempotence)

`CodeAnalyzer` caches `self.content` (set by the read in `parse`) and
`self._parsed_ast` (set by `_parse_python`); `parseStep` threads that
instance state explicitly. -/

structure AnalyzerState where
  file_path : String
  content : Option String := none
  parsed_ast : Option PyModule := none

/-- The mutation `self._parsed_ast = ast.parse(self.content)` performed by
`_parse_python` (not assigned when ast.parse raises). -/
def dispatchState (pyParse : String → Except String PyModule)
    (st : AnalyzerState) (c : String) : AnalyzerState :=
  if strEnds st.file_path ".py" then
    match pyParse c with
    | .ok m => { st with parsed_ast := some m }
    | .error _ => st
  else st

/-- One call of `parse()` on the instance state: if `self.content` is falsy
(None or ""), read the file (a failure returns an error record and leaves
the state unchanged); then dispatch on the extension. -/
def parseStep (pyParse : String → Except String PyModule)
    (read : String → Except String String) (st : AnalyzerState) :
    AnalyzerState × ParseResult :=
  if strOptTruthy st.content then
    let c := st.content.getD ""
    (dispatchState pyParse st c, parseDispatch pyParse st.file_path c)
  else
    match read st.file_path with
    | .error e => (st, .err ("could not read file: " ++ e))
    | .ok c =>
      let st2 := { st with content := some c }
      (dispatchState pyParse st2 c, parseDispatch pyParse st2.file_path c)

/-! ## Shared helpers for the claim theorems -/

/-- An `ast.parse` oracle for inputs that never reach the Python branch. -/
def pyNone : String → Except String PyModule := fun _ => Except.error "ast unavailable"

/-- The classified dependency dictionary of a parse outcome. -/
def depDictOf : ParseResult → List (String × Bool)
  | .ok r => classifyDeps r
  | .err _ => []

/-! ## Claim C1 -/

/-- The C1 project: x.js imports './y'; y.js is inert JS. -/
def c1read : String → Except String String := fun p =>
  if p = "/proj/x.js" then Except.ok "import a from './y'"
  else if p = "/proj/y.js" then Except.ok "var q = 1"
  else Except.error "missing"

/-- C1: the claim fails on the code.  With project root "/proj" and both
x.js and y.js in the inventory, x.js importing './y' yields the raw
dependency "./y" classified internal (third conjunct), yet the internal
adjacency list of x.js is empty (first conjunct): the resolver joins the
stripped specifier "/y" onto the source directory, producing the absolute
candidate "/y.<ext>" whose relpath against "/proj" is "../y.<ext>", never a
member of the inventory.  The second half of the claim holds: with y.js
absent the edge is likewise omitted and "./y" never enters the external
set (conjuncts four and five; conjunct two shows it is absent even when
y.js is present). -/
theorem c1_resolution_eval :
    (analyzeProject pyNone c1read "/w" "/proj" ["x.js", "y.js"]).internal_dependencies
      = [("x.js", []), ("y.js", [])]
    ∧ (analyzeProject pyNone c1read "/w" "/proj" ["x.js", "y.js"]).external_dependencies = []
    ∧ depDictOf (parseFile pyNone c1read "/proj/x.js") = [("./y", true)]
    ∧ (analyzeProject pyNone c1read "/w" "/proj" ["x.js"]).internal_dependencies = [("x.js", [])]
    ∧ (analyzeProject pyNone c1read "/w" "/proj" ["x.js"]).external_dependencies = [] :=
  ⟨rfl, rfl, rfl, rfl, rfl⟩

/-! ## Claim C2 -/

def c2content : String := "#include \"a.h\"\n#include <b.h>\n"

/-- C2: the claim fails on the code.  For a C file containing a quoted and
an angle-bracket include, the extractor captures both paths with their
delimiters stripped (first conjunct) and tags the record "c++" (second
conjunct), but the classifier branch tests for the tag "c/c++", so the
dependency dictionary of the file is empty: neither include is classified
internal or external (third conjunct).  Even if the branch were reached,
the captured text carries no angle brackets, so its bracket test would
classify the angle include internal as well (fourth conjunct). -/
theorem c2_include_classification_eval :
    (parseCpp c2content).includes = ["a.h", "b.h"]
    ∧ (parseCpp c2content).language = "c++"
    ∧ depDictOf (parseDispatch pyNone "/proj/x.c" c2content) = []
    ∧ (!(strStarts "b.h" "<" && strEnds "b.h" ">")) = true :=
  ⟨rfl, rfl, rfl, rfl⟩

/-! ## Claim C4 -/

/-- The AST that `ast.parse` produces for the (dedented) program
`class A(B):  def f(self, x=1): pass`. -/
def astC4 : PyModule :=
  ⟨[PyStmt.classDef "A" [PyExpr.name "B"]
      [PyStmt.funcDef "f" ⟨[⟨"self", none⟩, ⟨"x", none⟩], [PyExpr.const (PyVal.vInt 1)]⟩
        [PyStmt.passStmt] []]
      []]⟩

/-- C4: the claim fails on the code.  The extractor does place `f` in
`A`'s method list with base `B` and parameter `x` defaulting to `1` (first
conjunct), but it ALSO records `f` in the top-level function list (second
conjunct): `visit_ClassDef` restores `self.current_class` before calling
`generic_visit`, so the traversal reaches the method with no enclosing
class active and `visit_FunctionDef` appends it as a free function. -/
theorem c4_class_method_eval :
    (extractPythonStructure astC4).classes
      = [{ name := "A",
           methods := [{ name := "f",
                         args := [{ name := "self" }, { name := "x", dflt := some (PyVal.vInt 1) }],
                         is_method := true }],
           bases := ["B"] }]
    ∧ (extractPythonStructure astC4).functions
      = [{ name := "f",
           args := [{ name := "self" }, { name := "x", dflt := some (PyVal.vInt 1) }] }] :=
  ⟨rfl, rfl⟩

/-! ## Claim C9 -/

/-- The AST that `ast.parse` produces for
`class A:  async def g(self): pass`. -/
def astC9 : PyModule :=
  ⟨[PyStmt.classDef "A" []
      [PyStmt.asyncFuncDef "g" ⟨[⟨"self", none⟩], []⟩ [PyStmt.passStmt] []]
      []]⟩

/-- C9: the claim fails on the code.  An async function in a class body is
indeed not collected as a method (the body scan accepts only plain
`ast.FunctionDef` nodes; first conjunct), but it is NOT recorded nowhere:
because `visit_ClassDef` restores `self.current_class` before
`generic_visit`, no enclosing class is active when the traversal reaches
the node, and `visit_AsyncFunctionDef` appends it to the top-level
function list with its async flag set (second conjunct). -/
theorem c9_async_method_eval :
    (extractPythonStructure astC9).classes = [{ name := "A" }]
    ∧ (extractPythonStructure astC9).functions
      = [{ name := "g", args := [{ name := "self" }], is_async := true }] :=
  ⟨rfl, rfl⟩

/-! ## Claim C5 -/

def c5text : String := "impl Foo \x7b fn bar() \x7b\x7d \x7d fn baz() \x7b\x7d"
def c5textRev : String := "fn baz() \x7b\x7d impl Foo \x7b fn bar() \x7b\x7d \x7d"

/-- C5: the claim fails on the code.  In both declaration orders `baz` is
correctly kept as the only top-level function and `bar` is excluded from
the top-level list (its span falls inside the computed impl span), but
`bar` is NOT recorded as a method of `impl Foo`: the impl regex consumes
the opening brace, so `_find_class_content` starts after it, finds the
next brace — the body of `bar` itself — and returns the empty string
(final conjunct), which is falsy, leaving the method list empty. -/
theorem c5_rust_impl_eval :
    (parseRust c5text).impls = [{ type_ := "Foo", trait_ := none, methods := [] }]
    ∧ (parseRust c5text).functions = [{ name := "baz" }]
    ∧ (parseRust c5textRev).impls = [{ type_ := "Foo", trait_ := none, methods := [] }]
    ∧ (parseRust c5textRev).functions = [{ name := "baz" }]
    ∧ findClassContent c5text 10 = some "" :=
  ⟨rfl, rfl, rfl, rfl, rfl⟩

/-! ## Claim C3 -/

lemma stripDotsLoop_spec (l : List Char) (k : Nat) :
    stripDotsLoop l k = (l.dropWhile (fun c => c = '.'), k + (l.takeWhile (fun c => c = '.')).length) := by
  induction l generalizing k with
  | nil => simp [stripDotsLoop]
  | cons c cs ih =>
    by_cases h : c = '.'
    · simp [stripDotsLoop, h, ih, List.dropWhile, List.takeWhile]
      omega
    · simp [stripDotsLoop, h, List.dropWhile, List.takeWhile]

lemma climbLoop_eq_iterate (d : String) (k : Nat) :
    climbLoop d k = dirname^[k] d := by
  induction k generalizing d with
  | zero => rfl
  | succ n ih =>
    rw [climbLoop, ih, Function.iterate_succ_apply]

lemma strStarts_dot_of_take (spec : String)
    (h : 1 ≤ (spec.data.takeWhile (fun c => c = '.')).length) :
    strStarts spec "." = true := by
  unfold strStarts
  cases hd : spec.data with
  | nil => simp [hd] at h
  | cons c cs =>
    rw [hd] at h
    by_cases hc : c = '.'
    · subst hc
      simp [List.isPrefixOf]
    · simp [List.takeWhile, hc] at h

/-- C3: confirmed.  For any relative specifier with n ≥ 1 leading dots the
resolver probes from the directory obtained by starting in the source
file's own directory and climbing exactly n − 1 parents (dirname iterated
n − 1 times on dirname of the source file), with the remaining specifier's
dots mapped to path separators; the count produced by the stripping loop
is exactly the number of leading dot characters. -/
theorem c3_resolver_climb (projPath cwd : String) (inv : List String)
    (src spec : String) (n : Nat)
    (hcount : (stripDotsLoop spec.data 0).2 = n) (hn : 1 ≤ n) :
    resolveRelativeImport projPath cwd inv src spec
      = probeExts projPath cwd inv (dirname^[n - 1] (dirname src))
          (replDots (String.mk (spec.data.dropWhile (fun c => c = '.'))))
    ∧ n = (spec.data.takeWhile (fun c => c = '.')).length := by
  rw [stripDotsLoop_spec] at hcount
  simp only at hcount
  have hn3 : n = (spec.data.takeWhile (fun c => c = '.')).length := by omega
  refine ⟨?_, hn3⟩
  have hstart : strStarts spec "." = true := strStarts_dot_of_take spec (by omega)
  unfold resolveRelativeImport
  rw [hstart]
  simp only [Bool.not_true, Bool.false_eq_true, if_false, stripDotsLoop_spec,
    climbLoop_eq_iterate]
  rw [← hcount]

/-- C3 witness: for the file a/b/c.py and the three-dot specifier "...m",
the probe base is dirname applied twice to dirname "a/b/c.py" (that is,
two directories above "a/b"). -/
theorem c3_resolver_climb_witness :
    resolveRelativeImport "/proj" "/w" ["a/b/c.py"] "a/b/c.py" "...m"
      = probeExts "/proj" "/w" ["a/b/c.py"] (dirname^[2] (dirname "a/b/c.py"))
          (replDots (String.mk ("...m".data.dropWhile (fun c => c = '.'))))
    ∧ 3 = ("...m".data.takeWhile (fun c => c = '.')).length :=
  c3_resolver_climb "/proj" "/w" ["a/b/c.py"] "a/b/c.py" "...m" 3 (by decide) (by decide)

/-! ## Claim C7 -/

lemma scanClose_none (l : List Char) (pos level : Nat) (h : ∀ c ∈ l, c ≠ cbrace) :
    scanClose l pos level = none := by
  induction l generalizing pos level with
  | nil => rfl
  | cons c cs ih =>
    have hc : c ≠ cbrace := h c (List.mem_cons_self c cs)
    have hcs : ∀ x ∈ cs, x ≠ cbrace := fun x hx => h x (List.mem_cons_of_mem c hx)
    unfold scanClose
    by_cases hob : c = obrace
    · simp only [hob, if_pos rfl]
      exact ih (pos + 1) (level + 1) hcs
    · simp only [if_neg hob, if_neg hc]
      exact ih (pos + 1) level hcs

lemma findClassContent_none (content : String) (startPos : Nat)
    (h : ∀ c ∈ content.data, c ≠ cbrace) :
    findClassContent content startPos = none := by
  unfold findClassContent
  cases hidx : (content.data.drop startPos).findIdx? (fun c => c = obrace) with
  | none => simp only [hidx]
  | some rel =>
    have hdrop : ∀ c ∈ content.data.drop (startPos + rel + 1), c ≠ cbrace := by
      intro c hc
      exact h c (List.mem_of_mem_drop hc)
    simp only [hidx, scanClose_none _ _ _ hdrop]

lemma solBuildContract_functions_nil (content : String) (m : MatchRes)
    (h : ∀ c ∈ content.data, c ≠ cbrace) :
    (solBuildContract content m).functions = [] := by
  unfold solBuildContract
  simp only [findClassContent_none content (mEnd m) h, strOptTruthy, Bool.false_eq_true,
    if_false]

lemma rustBuildImpl_methods_nil (content : String) (m : MatchRes)
    (h : ∀ c ∈ content.data, c ≠ cbrace) :
    (rustBuildImpl content m).methods = [] := by
  unfold rustBuildImpl
  simp only [findClassContent_none content (mEnd m) h, strOptTruthy, Bool.false_eq_true,
    if_false]

lemma jsBuildClass_methods_nil (content : String) (m : MatchRes)
    (h : ∀ c ∈ content.data, c ≠ cbrace) :
    (jsBuildClass content m).methods = [] := by
  unfold jsBuildClass
  simp only [findClassContent_none content (mEnd m) h, strOptTruthy, Bool.false_eq_true,
    if_false]

/-- C7: confirmed.  On any input whose text contains no closing brace (so
every brace is unterminated), scoped-body extraction returns "not found"
for every start position, and every declaration scanned by a
body-bounded secondary pattern — Solidity contracts, Rust impls, JS/TS
classes — ends up with an empty member/method list; the extractors are
total functions, so no exception is possible. -/
theorem c7_unterminated_braces (content : String) (startPos : Nat)
    (h : ∀ c ∈ content.data, c ≠ cbrace) :
    findClassContent content startPos = none
    ∧ ((parseSolidity content).contracts.all (fun c => c.functions.isEmpty)) = true
    ∧ ((parseRust content).impls.all (fun i => i.methods.isEmpty)) = true
    ∧ ((parseJavascript content).classes.all (fun k => k.methods.isEmpty)) = true := by
  refine ⟨findClassContent_none content startPos h, ?_, ?_, ?_⟩
  · show ((finditer solContractRe content.data).map (solBuildContract content)).all
      (fun c => c.functions.isEmpty) = true
    rw [List.all_eq_true]
    intro x hx
    obtain ⟨m, hm, rfl⟩ := List.mem_map.mp hx
    simp [solBuildContract_functions_nil content m h]
  · show ((finditer rustImplRe content.data).map (rustBuildImpl content)).all
      (fun i => i.methods.isEmpty) = true
    rw [List.all_eq_true]
    intro x hx
    obtain ⟨m, hm, rfl⟩ := List.mem_map.mp hx
    simp [rustBuildImpl_methods_nil content m h]
  · show ((finditer jsClassRe content.data).map (jsBuildClass content)).all
      (fun k => k.methods.isEmpty) = true
    rw [List.all_eq_true]
    intro x hx
    obtain ⟨m, hm, rfl⟩ := List.mem_map.mp hx
    simp [jsBuildClass_methods_nil content m h]

/-- C7 witness: a Solidity/Rust/JS-shaped text with an opening brace and
no closing brace. -/
theorem c7_unterminated_braces_witness :
    findClassContent "contract C \x7b function f() public \x7b" 0 = none
    ∧ ((parseSolidity "contract C \x7b function f() public \x7b").contracts.all
        (fun c => c.functions.isEmpty)) = true
    ∧ ((parseRust "contract C \x7b function f() public \x7b").impls.all
        (fun i => i.methods.isEmpty)) = true
    ∧ ((parseJavascript "contract C \x7b function f() public \x7b").classes.all
        (fun k => k.methods.isEmpty)) = true :=
  c7_unterminated_braces "contract C \x7b function f() public \x7b" 0 (by decide)

/-! ## Claim C8 -/

/-- What a `parse()` call returns, as a function of the file path and the
cached content only. -/
def parseResultOf (pyParse : String → Except String PyModule)
    (read : String → Except String String) (fp : String) (co : Option String) : ParseResult :=
  if strOptTruthy co then parseDispatch pyParse fp (co.getD "")
  else
    match read fp with
    | .error e => .err ("could not read file: " ++ e)
    | .ok c => parseDispatch pyParse fp c

lemma parseStep_snd (pyParse : String → Except String PyModule)
    (read : String → Except String String) (st : AnalyzerState) :
    (parseStep pyParse read st).2 = parseResultOf pyParse read st.file_path st.content := by
  unfold parseStep parseResultOf
  split
  · rfl
  · cases read st.file_path <;> rfl

lemma dispatchState_file_path (pyParse : String → Except String PyModule)
    (st : AnalyzerState) (c : String) :
    (dispatchState pyParse st c).file_path = st.file_path := by
  unfold dispatchState
  by_cases h : strEnds st.file_path ".py" = true
  · rw [if_pos h]
    cases pyParse c <;> rfl
  · rw [if_neg h]

lemma dispatchState_content (pyParse : String → Except String PyModule)
    (st : AnalyzerState) (c : String) :
    (dispatchState pyParse st c).content = st.content := by
  unfold dispatchState
  by_cases h : strEnds st.file_path ".py" = true
  · rw [if_pos h]
    cases pyParse c <;> rfl
  · rw [if_neg h]

lemma parseStep_fst_file_path (pyParse : String → Except String PyModule)
    (read : String → Except String String) (st : AnalyzerState) :
    (parseStep pyParse read st).1.file_path = st.file_path := by
  unfold parseStep
  by_cases h : strOptTruthy st.content = true
  · rw [if_pos h]
    exact dispatchState_file_path pyParse st _
  · rw [if_neg h]
    cases hread : read st.file_path with
    | error e => rfl
    | ok c =>
      show (dispatchState pyParse { st with content := some c } c).file_path = st.file_path
      rw [dispatchState_file_path]

lemma parseStep_fst_content (pyParse : String → Except String PyModule)
    (read : String → Except String String) (st : AnalyzerState) :
    (parseStep pyParse read st).1.content
      = if strOptTruthy st.content then st.content
        else match read st.file_path with
          | .error _ => st.content
          | .ok c => some c := by
  unfold parseStep
  by_cases h : strOptTruthy st.content = true
  · rw [if_pos h, if_pos h]
    exact dispatchState_content pyParse st _
  · rw [if_neg h, if_neg h]
    cases hread : read st.file_path with
    | error e => rfl
    | ok c =>
      show (dispatchState pyParse { st with content := some c } c).content = _
      rw [dispatchState_content]

lemma parseResultOf_read_stable (pyParse : String → Except String PyModule)
    (read : String → Except String String) (fp : String) (c : String)
    (hread : read fp = Except.ok c) :
    parseResultOf pyParse read fp (some c) = parseResultOf pyParse read fp none := by
  unfold parseResultOf
  by_cases hc : c = ""
  · subst hc
    simp [strOptTruthy, hread]
  · simp [strOptTruthy, hc, hread]

/-- C8: confirmed.  A second `parse()` call on the instance state produced
by a first call returns the same record (the cached `self.content` read
during the first call does not change the outcome), and the cached
`self._parsed_ast` never influences the result; the outcome is the pure
function `parseResultOf` of the file path and cached content alone, which
is determined by the input text. -/
theorem c8_extraction_pure (pyParse : String → Except String PyModule)
    (read : String → Except String String) (st : AnalyzerState) :
    (parseStep pyParse read ((parseStep pyParse read st).1)).2 = (parseStep pyParse read st).2
    ∧ (∀ a, (parseStep pyParse read { st with parsed_ast := a }).2
        = (parseStep pyParse read st).2) := by
  constructor
  · rw [parseStep_snd, parseStep_snd, parseStep_fst_file_path, parseStep_fst_content]
    by_cases h : strOptTruthy st.content = true
    · rw [if_pos h]
    · rw [if_neg h]
      cases hread : read st.file_path with
      | error e => rfl
      | ok c =>
        have h0 : strOptTruthy st.content = false := by
          cases hb : strOptTruthy st.content
          · rfl
          · exact absurd hb h
        unfold parseResultOf
        rw [h0]
        by_cases hc : c = ""
        · subst hc
          simp [strOptTruthy, hread]
        · simp [strOptTruthy, hc, hread]
  · intro a
    rw [parseStep_snd, parseStep_snd]

/-! ## Claim C10 -/

/-- Specification-side binning key: the substring after the last dot, with
"unknown" for dotless paths. -/
def suffixAfterLastDot (p : String) : String :=
  match lastIdxOf '.' p.data with
  | some i => String.mk (p.data.drop (i + 1))
  | none => "unknown"

lemma splitChar_ne_nil (sep : Char) (l : List Char) : splitChar sep l ≠ [] := by
  cases l with
  | nil => simp [splitChar]
  | cons c cs =>
    unfold splitChar
    by_cases h : c = sep
    · simp [h]
    · simp only [if_neg h]
      cases splitChar sep cs <;> simp

lemma splitChar_no_sep (sep : Char) (l : List Char) (h : sep ∉ l) :
    splitChar sep l = [l] := by
  induction l with
  | nil => rfl
  | cons c cs ih =>
    have hc : c ≠ sep := fun he => h (he ▸ List.mem_cons_self c cs)
    have hcs : sep ∉ cs := fun hm => h (List.mem_cons_of_mem c hm)
    unfold splitChar
    rw [if_neg hc, ih hcs]

lemma lastIdxOf_none_iff (c : Char) (l : List Char) :
    lastIdxOf c l = none ↔ c ∉ l := by
  induction l with
  | nil => simp [lastIdxOf]
  | cons x xs ih =>
    unfold lastIdxOf
    cases hx : lastIdxOf c xs with
    | some i =>
      constructor
      · intro he
        cases he
      · intro hm
        have hxs : c ∉ xs := fun h2 => hm (List.mem_cons_of_mem x h2)
        rw [ih.mpr hxs] at hx
        cases hx
    | none =>
      have hxs : c ∉ xs := ih.mp hx
      by_cases hc : x = c
      · rw [if_pos hc]
        constructor
        · intro he
          cases he
        · intro hm
          exact absurd (hc ▸ List.mem_cons_self x xs) hm
      · rw [if_neg hc]
        constructor
        · intro _ hm
          rcases List.mem_cons.mp hm with h1 | h2
          · exact hc h1.symm
          · exact hxs h2
        · intro _
          rfl

lemma splitChar_len_two (sep : Char) (l : List Char) (h : sep ∈ l) :
    2 ≤ (splitChar sep l).length := by
  induction l with
  | nil => cases h
  | cons c cs ih =>
    unfold splitChar
    by_cases hc : c = sep
    · simp only [if_pos hc, List.length_cons]
      have := splitChar_ne_nil sep cs
      have : 1 ≤ (splitChar sep cs).length := by
        cases hs : splitChar sep cs with
        | nil => exact absurd hs (splitChar_ne_nil sep cs)
        | cons a t => simp
      omega
    · have hcs : sep ∈ cs := by
        cases h with
        | head => exact absurd rfl hc
        | tail _ hm => exact hm
      simp only [if_neg hc]
      cases hs : splitChar sep cs with
      | nil => exact absurd hs (splitChar_ne_nil sep cs)
      | cons a t =>
        have := ih hcs
        rw [hs] at this
        simpa using this

lemma getLastD_ne_nil {β : Type} (t : List β) (d1 d2 : β) (h : t ≠ []) :
    t.getLastD d1 = t.getLastD d2 := by
  cases t with
  | nil => exact absurd rfl h
  | cons a t2 => rfl

lemma splitChar_cons_sep (sep : Char) (cs : List Char) :
    splitChar sep (sep :: cs) = [] :: splitChar sep cs := by
  conv_lhs => rw [splitChar]
  rw [if_pos rfl]

lemma splitChar_cons_ne (sep c : Char) (cs : List Char) (hc : c ≠ sep)
    (a : List Char) (t : List (List Char)) (hs : splitChar sep cs = a :: t) :
    splitChar sep (c :: cs) = (c :: a) :: t := by
  conv_lhs => rw [splitChar]
  rw [if_neg hc, hs]

lemma splitChar_getLast (sep : Char) (l : List Char) (i : Nat)
    (hidx : lastIdxOf sep l = some i) :
    (splitChar sep l).getLastD [] = l.drop (i + 1) := by
  induction l generalizing i with
  | nil => simp [lastIdxOf] at hidx
  | cons c cs ih =>
    unfold lastIdxOf at hidx
    cases hx : lastIdxOf sep cs with
    | some j =>
      rw [hx] at hidx
      simp only [Option.some.injEq] at hidx
      subst hidx
      have hmem : sep ∈ cs := by
        by_contra hm
        rw [(lastIdxOf_none_iff sep cs).mpr hm] at hx
        cases hx
      have hgoalr : (c :: cs).drop (j + 1 + 1) = cs.drop (j + 1) := rfl
      rw [hgoalr]
      by_cases hc : c = sep
      · subst hc
        rw [splitChar_cons_sep, List.getLastD_cons]
        rw [getLastD_ne_nil _ _ [] (splitChar_ne_nil c cs)]
        exact ih j hx
      · cases hs : splitChar sep cs with
        | nil => exact absurd hs (splitChar_ne_nil sep cs)
        | cons a t =>
          have h2 := splitChar_len_two sep cs hmem
          rw [hs] at h2
          have ht : t ≠ [] := by
            cases t with
            | nil => simp at h2
            | cons _ _ => simp
          rw [splitChar_cons_ne sep c cs hc a t hs]
          have e1 : ((c :: a) :: t).getLastD [] = t.getLastD (c :: a) :=
            List.getLastD_cons _ _ _
          have e2 : t.getLastD (c :: a) = t.getLastD a := getLastD_ne_nil t _ _ ht
          have e3 : t.getLastD a = (a :: t).getLastD [] :=
            (List.getLastD_cons _ _ _).symm
          rw [e1, e2, e3, ← hs]
          exact ih j hx
    | none =>
      rw [hx] at hidx
      by_cases hc : c = sep
      · rw [if_pos hc] at hidx
        simp only [Option.some.injEq] at hidx
        subst hidx
        have hmem : sep ∉ cs := (lastIdxOf_none_iff sep cs).mp hx
        rw [hc, splitChar_cons_sep, splitChar_no_sep sep cs hmem]
        simp [List.getLastD_cons]
      · rw [if_neg hc] at hidx
        cases hidx

lemma getLastD_map_mk (l : List (List Char)) (d : List Char) :
    (l.map (fun x => String.mk x)).getLastD (String.mk d) = String.mk (l.getLastD d) := by
  induction l generalizing d with
  | nil => rfl
  | cons a t ih =>
    simp only [List.map_cons, List.getLastD_cons]
    exact ih a

lemma contains_iff_mem (c : Char) (l : List Char) : l.contains c = true ↔ c ∈ l :=
  List.elem_iff

/-- The binning key computed by the code equals the specification-side
"substring after the last dot, else unknown" key. -/
lemma extKey_eq_suffix (p : String) : extKey p = suffixAfterLastDot p := by
  unfold extKey suffixAfterLastDot strContains
  by_cases hm : '.' ∈ p.data
  · rw [if_pos ((contains_iff_mem '.' p.data).mpr hm)]
    cases hidx : lastIdxOf '.' p.data with
    | none => exact absurd ((lastIdxOf_none_iff '.' p.data).mp hidx) (by simpa using hm)
    | some i =>
      unfold pySplitChar
      have hmk : ("" : String) = String.mk [] := rfl
      rw [List.getLastD_eq_getLast?]
      rw [← List.getLastD_eq_getLast?]
      calc (List.map (fun l => String.mk l) (splitChar '.' p.data)).getLastD ""
          = (List.map (fun l => String.mk l) (splitChar '.' p.data)).getLastD (String.mk []) := by
            rw [← hmk]
        _ = String.mk ((splitChar '.' p.data).getLastD []) := getLastD_map_mk _ []
        _ = String.mk (p.data.drop (i + 1)) := by rw [splitChar_getLast '.' p.data i hidx]
  · have : p.data.contains '.' = false := by
      cases hb : p.data.contains '.'
      · rfl
      · exact absurd ((contains_iff_mem '.' p.data).mp hb) hm
    rw [this]
    simp only [Bool.false_eq_true, if_false]
    rw [(lastIdxOf_none_iff '.' p.data).mpr hm]

lemma hLookup_hInc (h : List (String × Nat)) (k2 k : String) :
    hLookup (hInc h k2) k = hLookup h k + (if k2 = k then 1 else 0) := by
  induction h with
  | nil =>
    by_cases he : k2 = k <;> simp [hInc, hLookup, he]
  | cons a t ih =>
    obtain ⟨k3, v⟩ := a
    by_cases h32 : k3 = k2
    · subst h32
      have e : hInc ((k3, v) :: t) k3 = (k3, v + 1) :: t := by
        simp [hInc]
      rw [e]
      by_cases h3k : k3 = k
      · simp [hLookup, h3k]
      · simp [hLookup, h3k]
    · have e : hInc ((k3, v) :: t) k2 = (k3, v) :: hInc t k2 := by
        simp only [hInc, if_neg h32]
      rw [e]
      by_cases h3k : k3 = k
      · have hk2k : k2 ≠ k := fun he => h32 (h3k.trans he.symm)
        simp [hLookup, h3k, hk2k]
      · simp [hLookup, h3k, ih]

lemma countFileTypes_foldl (paths : List String) (acc : List (String × Nat)) (k : String) :
    hLookup (paths.foldl (fun h p => hInc h (extKey p)) acc) k
      = hLookup acc k + (paths.filter (fun p => extKey p = k)).length := by
  induction paths generalizing acc with
  | nil => simp
  | cons p ps ih =>
    simp only [List.foldl_cons, List.filter_cons]
    rw [ih]
    rw [hLookup_hInc]
    by_cases he : extKey p = k
    · simp [he]
      omega
    · simp [he]

/-- C10: confirmed.  The histogram bins every input path by the substring
after its last dot ("unknown" when the path has no dot): the count stored
for any key equals the number of input paths with that key (first
conjunct), the code's key agrees with the substring-after-last-dot
reading (second conjunct), and the summary's histogram is computed from
ALL input paths, before and independent of any per-file analysis (third
conjunct). -/
theorem c10_file_type_histogram (pyParse : String → Except String PyModule)
    (read : String → Except String String) (cwd projPath : String)
    (paths : List String) (k : String) :
    hLookup (countFileTypes paths) k
      = (paths.filter (fun p => suffixAfterLastDot p = k)).length
    ∧ (∀ p : String, extKey p = suffixAfterLastDot p)
    ∧ (analyzeProject pyParse read cwd projPath paths).file_types = countFileTypes paths := by
  refine ⟨?_, extKey_eq_suffix, rfl⟩
  unfold countFileTypes
  rw [countFileTypes_foldl]
  simp only [hLookup]
  have : (fun p => decide (extKey p = k)) = (fun p => decide (suffixAfterLastDot p = k)) := by
    funext p
    rw [extKey_eq_suffix]
  simp [this]

/-! ## Claim C6 -/

def isOkB : ParseResult → Bool
  | .ok _ => true
  | .err _ => false

/-- The successfully analyzed files, in input order, with their records. -/
def okList (pyParse : String → Except String PyModule)
    (read : String → Except String String) (projPath : String) (paths : List String) :
    List (String × Record) :=
  paths.filterMap (fun p =>
    match parseFile pyParse read (join2 projPath p) with
    | .ok r => some (p, r)
    | .err _ => none)

lemma dinsert_fresh {β : Type} (m : List (String × β)) (p : String) (v : β)
    (h : ∀ pr ∈ m, pr.1 ≠ p) : dinsert m p v = m ++ [(p, v)] := by
  induction m with
  | nil => rfl
  | cons a t ih =>
    have ha : a.1 ≠ p := h a (List.mem_cons_self a t)
    obtain ⟨k2, w⟩ := a
    unfold dinsert
    rw [if_neg ha]
    rw [ih (fun pr hpr => h pr (List.mem_cons_of_mem _ hpr))]
    rfl

lemma mem_dinsert_key {β : Type} (m : List (String × β)) (k : String) (v : β)
    (pr : String × β) (h : pr ∈ dinsert m k v) : pr ∈ m ∨ pr.1 = k := by
  induction m with
  | nil =>
    simp [dinsert] at h
    right
    rw [h]
  | cons a t ih =>
    obtain ⟨k2, w⟩ := a
    unfold dinsert at h
    by_cases he : k2 = k
    · rw [if_pos he] at h
      rcases List.mem_cons.mp h with h1 | h2
      · right
        rw [h1]
      · left
        exact List.mem_cons_of_mem _ h2
    · rw [if_neg he] at h
      rcases List.mem_cons.mp h with h1 | h2
      · left
        rw [h1]
        exact List.mem_cons_self _ t
      · rcases ih h2 with h3 | h4
        · exact Or.inl (List.mem_cons_of_mem _ h3)
        · exact Or.inr h4

lemma okList_cons (pyParse : String → Except String PyModule)
    (read : String → Except String String) (projPath p : String) (ps : List String) :
    okList pyParse read projPath (p :: ps)
      = match parseFile pyParse read (join2 projPath p) with
        | .ok r => (p, r) :: okList pyParse read projPath ps
        | .err _ => okList pyParse read projPath ps := by
  unfold okList
  rw [List.filterMap_cons]
  cases parseFile pyParse read (join2 projPath p) <;> rfl

lemma buildFileAnalyzers_aux (pyParse : String → Except String PyModule)
    (read : String → Except String String) (projPath : String) :
    ∀ (paths : List String) (acc : List (String × Record)),
      (∀ q ∈ paths, ∀ pr ∈ acc, pr.1 ≠ q) → paths.Nodup →
      paths.foldl (fun m p =>
          match parseFile pyParse read (join2 projPath p) with
          | .ok r => dinsert m p r
          | .err _ => m) acc
        = acc ++ okList pyParse read projPath paths := by
  intro paths
  induction paths with
  | nil =>
    intro acc _ _
    simp [okList]
  | cons p ps ih =>
    intro acc hfresh hnd
    rw [List.nodup_cons] at hnd
    rw [List.foldl_cons, okList_cons]
    cases hp : parseFile pyParse read (join2 projPath p) with
    | err msg =>
      dsimp only
      exact ih acc (fun q hq pr hpr => hfresh q (List.mem_cons_of_mem p hq) pr hpr) hnd.2
    | ok r =>
      dsimp only
      have hfreshp : ∀ pr ∈ acc, pr.1 ≠ p :=
        fun pr hpr => hfresh p (List.mem_cons_self p ps) pr hpr
      rw [dinsert_fresh acc p r hfreshp]
      have hfresh2 : ∀ q ∈ ps, ∀ pr ∈ acc ++ [(p, r)], pr.1 ≠ q := by
        intro q hq pr hpr
        rcases List.mem_append.mp hpr with h1 | h2
        · exact hfresh q (List.mem_cons_of_mem p hq) pr h1
        · have he2 : pr = (p, r) := by simpa using h2
          rw [he2]
          intro he
          exact hnd.1 ((show p = q from he) ▸ hq)
      rw [ih (acc ++ [(p, r)]) hfresh2 hnd.2]
      simp

/-- Under a duplicate-free inventory, the `file_analyzers` dictionary is
exactly the ordered list of successfully parsed files. -/
lemma buildFileAnalyzers_eq_okList (pyParse : String → Except String PyModule)
    (read : String → Except String String) (projPath : String)
    (paths : List String) (hnd : paths.Nodup) :
    buildFileAnalyzers pyParse read projPath paths = okList pyParse read projPath paths := by
  unfold buildFileAnalyzers
  have := buildFileAnalyzers_aux pyParse read projPath paths [] (by intro q _ pr hpr; cases hpr) hnd
  simpa using this

lemma foldl_add_sum {β : Type} (g : β → Nat) (l : List β) (n0 : Nat) :
    l.foldl (fun n x => n + g x) n0 = n0 + (l.map g).sum := by
  induction l generalizing n0 with
  | nil => simp
  | cons x t ih =>
    simp only [List.foldl_cons, List.map_cons, List.sum_cons]
    rw [ih]
    omega

lemma mem_okList (pyParse : String → Except String PyModule)
    (read : String → Except String String) (projPath : String)
    (paths : List String) (p : String) (r : Record)
    (h : (p, r) ∈ okList pyParse read projPath paths) :
    parseFile pyParse read (join2 projPath p) = ParseResult.ok r := by
  unfold okList at h
  rcases List.mem_filterMap.mp h with ⟨x, _, hx⟩
  cases hp : parseFile pyParse read (join2 projPath x) with
  | err msg =>
    rw [hp] at hx
    cases hx
  | ok r2 =>
    rw [hp] at hx
    simp only [Option.some.injEq, Prod.mk.injEq] at hx
    rw [← hx.1, hp, hx.2]

lemma mem_buildInternalDeps_key (projPath cwd : String) (paths : List String)
    (dg : List (String × List (String × Bool))) (p : String) (l : List String) :
    ∀ acc, (p, l) ∈ dg.foldl (fun m pd =>
        dinsert m pd.1 (pd.2.foldl (fun l2 db =>
          if db.2 then
            match resolveRelativeImport projPath cwd paths pd.1 db.1 with
            | some t => l2 ++ [t]
            | none => l2
          else l2) [])) acc →
      (p, l) ∈ acc ∨ p ∈ dg.map Prod.fst := by
  induction dg with
  | nil =>
    intro acc h
    exact Or.inl h
  | cons pd dgs ih =>
    intro acc h
    simp only [List.foldl_cons] at h
    rcases ih _ h with h1 | h2
    · rcases mem_dinsert_key _ _ _ _ h1 with h3 | h4
      · exact Or.inl h3
      · right
        rw [List.map_cons]
        exact List.mem_cons.mpr (Or.inl h4)
    · right
      rw [List.map_cons]
      exact List.mem_cons.mpr (Or.inr h2)

lemma mem_buildDependencyGraph_key (analyzers : List (String × Record))
    (q : String) (d : List (String × Bool)) :
    ∀ acc, (q, d) ∈ analyzers.foldl (fun m pr =>
        let fileDeps := classifyDeps pr.2
        if hasErrorKey fileDeps then m else dinsert m pr.1 fileDeps) acc →
      (q, d) ∈ acc ∨ q ∈ analyzers.map Prod.fst := by
  induction analyzers with
  | nil =>
    intro acc h
    exact Or.inl h
  | cons pr prs ih =>
    intro acc h
    simp only [List.foldl_cons] at h
    rcases ih _ h with h1 | h2
    · by_cases he : hasErrorKey (classifyDeps pr.2) = true
      · simp only [he, if_pos] at h1
        exact Or.inl h1
      · rw [if_neg he] at h1
        rcases mem_dinsert_key _ _ _ _ h1 with h3 | h4
        · exact Or.inl h3
        · right
          rw [List.map_cons]
          exact List.mem_cons.mpr (Or.inl h4)
    · right
      rw [List.map_cons]
      exact List.mem_cons.mpr (Or.inr h2)

/-- C6: confirmed.  A parse outcome is either an error record carrying
only a message or a full structural record (first conjunct); every
aggregate of the summary — analyzed-file count, per-language counts,
declaration and function counts, external set and internal adjacency —
is computed from the successfully parsed files alone (middle conjuncts);
and a file whose parse errors has no entry in the internal dependency
graph (last conjunct).  Aggregation is a total function: one file's
failure never aborts the pass. -/
theorem c6_error_records_excluded (pyParse : String → Except String PyModule)
    (read : String → Except String String) (cwd projPath : String)
    (paths : List String) (hnd : paths.Nodup) :
    (∀ p : String, (∃ msg, parseFile pyParse read p = ParseResult.err msg)
        ∨ (∃ r, parseFile pyParse read p = ParseResult.ok r))
    ∧ (analyzeProject pyParse read cwd projPath paths).analyzed_files
        = (okList pyParse read projPath paths).length
    ∧ (analyzeProject pyParse read cwd projPath paths).language_stats
        = (okList pyParse read projPath paths).foldl (fun h pr => hInc h pr.2.language) []
    ∧ (analyzeProject pyParse read cwd projPath paths).class_count
        = ((okList pyParse read projPath paths).map (fun pr => declCount pr.2)).sum
    ∧ (analyzeProject pyParse read cwd projPath paths).function_count
        = ((okList pyParse read projPath paths).map (fun pr => funcCount pr.2)).sum
    ∧ (analyzeProject pyParse read cwd projPath paths).external_dependencies
        = extractExternalDeps (buildDependencyGraph (okList pyParse read projPath paths))
    ∧ (analyzeProject pyParse read cwd projPath paths).internal_dependencies
        = buildInternalDeps projPath cwd paths (buildDependencyGraph (okList pyParse read projPath paths))
    ∧ (∀ p msg, parseFile pyParse read (join2 projPath p) = ParseResult.err msg →
        ∀ l, (p, l) ∉ (analyzeProject pyParse read cwd projPath paths).internal_dependencies) := by
  have hbfa := buildFileAnalyzers_eq_okList pyParse read projPath paths hnd
  refine ⟨?_, ?_, ?_, ?_, ?_, ?_, ?_, ?_⟩
  · intro p
    cases hp : parseFile pyParse read p with
    | err msg => exact Or.inl ⟨msg, rfl⟩
    | ok r => exact Or.inr ⟨r, rfl⟩
  · show (buildFileAnalyzers pyParse read projPath paths).length = _
    rw [hbfa]
  · show (buildFileAnalyzers pyParse read projPath paths).foldl _ [] = _
    rw [hbfa]
  · show (buildFileAnalyzers pyParse read projPath paths).foldl _ 0 = _
    rw [hbfa, foldl_add_sum]
    omega
  · show (buildFileAnalyzers pyParse read projPath paths).foldl _ 0 = _
    rw [hbfa, foldl_add_sum]
    omega
  · show extractExternalDeps (buildDependencyGraph (buildFileAnalyzers pyParse read projPath paths)) = _
    rw [hbfa]
  · show buildInternalDeps projPath cwd paths
      (buildDependencyGraph (buildFileAnalyzers pyParse read projPath paths)) = _
    rw [hbfa]
  · intro p msg hp l hmem
    have hmem2 : (p, l) ∈ buildInternalDeps projPath cwd paths
        (buildDependencyGraph (okList pyParse read projPath paths)) := by
      have e : (analyzeProject pyParse read cwd projPath paths).internal_dependencies
          = buildInternalDeps projPath cwd paths
              (buildDependencyGraph (buildFileAnalyzers pyParse read projPath paths)) := rfl
      rw [e, hbfa] at hmem
      exact hmem
    unfold buildInternalDeps at hmem2
    rcases mem_buildInternalDeps_key projPath cwd paths _ p l [] hmem2 with h1 | h2
    · cases h1
    · rcases List.mem_map.mp h2 with ⟨pd, hpd, hfst⟩
      have hpd2 : (pd.1, pd.2) ∈ buildDependencyGraph (okList pyParse read projPath paths) := hpd
      unfold buildDependencyGraph at hpd2
      rcases mem_buildDependencyGraph_key _ pd.1 pd.2 [] hpd2 with h3 | h4
      · cases h3
      · rcases List.mem_map.mp h4 with ⟨pr, hpr, hfst2⟩
        have hok : parseFile pyParse read (join2 projPath pr.1) = ParseResult.ok pr.2 :=
          mem_okList pyParse read projPath paths pr.1 pr.2 hpr
        rw [hfst2, hfst] at hok
        rw [hok] at hp
        cases hp

/-- C6 witness: a two-file project in which one file is unreadable and the
other has a Python syntax error; nothing is aggregated, and the failing
files have no adjacency entries. -/
theorem c6_error_records_excluded_witness :
    (∀ p : String, (∃ msg, parseFile (fun _ => Except.error "syntax error")
          (fun q => if q = "/r/a.py" then Except.ok "bad(" else Except.error "io") p
            = ParseResult.err msg)
        ∨ (∃ r, parseFile (fun _ => Except.error "syntax error")
            (fun q => if q = "/r/a.py" then Except.ok "bad(" else Except.error "io") p
              = ParseResult.ok r))
    ∧ (analyzeProject (fun _ => Except.error "syntax error")
        (fun q => if q = "/r/a.py" then Except.ok "bad(" else Except.error "io")
        "/w" "/r" ["a.py", "b.js"]).analyzed_files
        = (okList (fun _ => Except.error "syntax error")
            (fun q => if q = "/r/a.py" then Except.ok "bad(" else Except.error "io")
            "/r" ["a.py", "b.js"]).length
    ∧ (analyzeProject (fun _ => Except.error "syntax error")
        (fun q => if q = "/r/a.py" then Except.ok "bad(" else Except.error "io")
        "/w" "/r" ["a.py", "b.js"]).language_stats
        = (okList (fun _ => Except.error "syntax error")
            (fun q => if q = "/r/a.py" then Except.ok "bad(" else Except.error "io")
            "/r" ["a.py", "b.js"]).foldl (fun h pr => hInc h pr.2.language) []
    ∧ (analyzeProject (fun _ => Except.error "syntax error")
        (fun q => if q = "/r/a.py" then Except.ok "bad(" else Except.error "io")
        "/w" "/r" ["a.py", "b.js"]).class_count
        = ((okList (fun _ => Except.error "syntax error")
            (fun q => if q = "/r/a.py" then Except.ok "bad(" else Except.error "io")
            "/r" ["a.py", "b.js"]).map (fun pr => declCount pr.2)).sum
    ∧ (analyzeProject (fun _ => Except.error "syntax error")
        (fun q => if q = "/r/a.py" then Except.ok "bad(" else Except.error "io")
        "/w" "/r" ["a.py", "b.js"]).function_count
        = ((okList (fun _ => Except.error "syntax error")
            (fun q => if q = "/r/a.py" then Except.ok "bad(" else Except.error "io")
            "/r" ["a.py", "b.js"]).map (fun pr => funcCount pr.2)).sum
    ∧ (analyzeProject (fun _ => Except.error "syntax error")
        (fun q => if q = "/r/a.py" then Except.ok "bad(" else Except.error "io")
        "/w" "/r" ["a.py", "b.js"]).external_dependencies
        = extractExternalDeps (buildDependencyGraph (okList (fun _ => Except.error "syntax error")
            (fun q => if q = "/r/a.py" then Except.ok "bad(" else Except.error "io")
            "/r" ["a.py", "b.js"]))
    ∧ (analyzeProject (fun _ => Except.error "syntax error")
        (fun q => if q = "/r/a.py" then Except.ok "bad(" else Except.error "io")
        "/w" "/r" ["a.py", "b.js"]).internal_dependencies
        = buildInternalDeps "/r" "/w" ["a.py", "b.js"]
            (buildDependencyGraph (okList (fun _ => Except.error "syntax error")
              (fun q => if q = "/r/a.py" then Except.ok "bad(" else Except.error "io")
              "/r" ["a.py", "b.js"]))
    ∧ (∀ p msg, parseFile (fun _ => Except.error "syntax error")
          (fun q => if q = "/r/a.py" then Except.ok "bad(" else Except.error "io")
          (join2 "/r" p) = ParseResult.err msg →
        ∀ l, (p, l) ∉ (analyzeProject (fun _ => Except.error "syntax error")
            (fun q => if q = "/r/a.py" then Except.ok "bad(" else Except.error "io")
            "/w" "/r" ["a.py", "b.js"]).internal_dependencies) :=
  c6_error_records_excluded (fun _ => Except.error "syntax error")
    (fun q => if q = "/r/a.py" then Except.ok "bad(" else Except.error "io")
    "/w" "/r" ["a.py", "b.js"] (by decide)

end PromptFusion
